import Mathlib

/-!
ESP32-DMX: a shallow embedding of `src/dmx.cpp`

The static members of the C++ class `DMX` become the fields of the record `DMX`;
every member function becomes a function that takes the record and returns the
new one.  Heap buffers are lists of bytes behind an optional pointer, and every
access is bounds-checked: an access outside the allocation (undefined behaviour
in C++) makes the operation return `none`.

Conventions
* bytes (`uint8_t` data) are natural numbers; no operation of the program does
  arithmetic on a data byte, it only copies it or compares it with 0;
* `uint16_t` operands are promoted to `int` before `+`, `-` and comparisons, so
  these are plain natural-number operations; `size_t` is the 32-bit unsigned
  type of the ESP32, and `start + size` is computed modulo `2^32`;
* `CptAllZeroFrame` is a `uint8_t`, its increment wraps modulo 256;
* `malloc` and `realloc` are assumed to succeed; the bytes they leave
  uninitialised are read from a parameter `junk`;
* the lock `sync_dmx` is not modelled: each function is one atomic step;
* `xTaskGetTickCount()` is the parameter `now` of a receive step.
-/

/-! ## Constants and enumerations (dmx.cpp 46-56, dmx.h 36-37) -/

def HEALTHY_TIME : Nat := 500

def BUF_SIZE : Nat := 513

def NBZEROFRAME_TRIGGER_BLACKOUT : Nat := 12

/-- Number of values of the 32-bit `size_t` of the target. -/
def SIZE_T_RANGE : Nat := 2 ^ 32

inductive DMXDirection where
  | DMX_DIR_INPUT
  | DMX_DIR_OUTPUT
  deriving DecidableEq, Repr

inductive DMXState where
  | DMX_IDLE
  | DMX_BREAK
  | DMX_DATA
  | DMX_DONE
  | DMX_OUTPUT
  deriving DecidableEq, Repr

/-- The kinds of `uart_event_t` the receive task distinguishes; a data event
carries the bytes that `uart_read_bytes` delivers (`event.size` is their number),
`other` stands for every event type the `switch` does not name. -/
inductive uart_event_t where
  | UART_DATA (payload : List Nat)
  | UART_BREAK
  | UART_FRAME_ERR
  | UART_PARITY_ERR
  | UART_BUFFER_FULL
  | UART_FIFO_OVF
  | other (code : Nat)
  deriving DecidableEq, Repr

/-! ## Memory model -/

/-- A `uint8_t*`: `none` is `nullptr`, `some b` points to an allocation whose
slots are the elements of `b`. -/
abbrev BytePtr := Option (List Nat)

/-- The expression `p[i]` as an rvalue. -/
def loadByte (p : BytePtr) (i : Nat) : Option Nat :=
  p.bind (fun b => b[i]?)

/-- The assignment `p[i] = v`. -/
def storeByte (p : BytePtr) (i v : Nat) : Option (List Nat) :=
  p.bind (fun b => if i < b.length then some (b.set i v) else none)

/-- The call `memcpy(dst + doff, src + soff, n)`; the result is the new content
of the allocation behind `dst`. -/
def memcpy (dst : BytePtr) (doff : Nat) (src : BytePtr) (soff n : Nat) : Option (List Nat) :=
  dst.bind (fun d => src.bind (fun s =>
    if doff + n ≤ d.length ∧ soff + n ≤ s.length then
      some (d.take doff ++ (s.drop soff).take n ++ d.drop (doff + n))
    else none))

/-- The call `memset(dst, v, n)`. -/
def memset (dst : BytePtr) (v n : Nat) : Option (List Nat) :=
  dst.bind (fun d =>
    if n ≤ d.length then some (List.replicate n v ++ d.drop n) else none)

/-- The bytes `p[off], ..., p[off + n - 1]` as a callee reads them from
`p + off`. -/
def readBytes (p : BytePtr) (off n : Nat) : Option (List Nat) :=
  p.bind (fun b => if off + n ≤ b.length then some ((b.drop off).take n) else none)

/-- The call `malloc(n)`: `n` slots of indeterminate content. -/
def malloc (junk : Nat → Nat) (n : Nat) : List Nat :=
  (List.range n).map junk

/-- The call `realloc(old, n)`: the common prefix is kept, the rest is
indeterminate. -/
def realloc (junk : Nat → Nat) (old : List Nat) (n : Nat) : List Nat :=
  (List.range n).map (fun i => (old[i]?).getD (junk i))

/-- Conversion of a tick count (`TickType_t`, 32-bit unsigned) to `long`
(32-bit signed). -/
def toLong (t : Nat) : Int :=
  if t % 2 ^ 32 < 2 ^ 31 then (t % 2 ^ 32 : Nat) else ((t % 2 ^ 32 : Nat) : Int) - 2 ^ 32

/-! ## The state: the static members of class `DMX` (dmx.cpp 58-76) -/

structure DMX where
  dmx_state : DMXState
  _StartDMXAddr : Nat
  _NbChannels : Nat
  dmx_data : BytePtr
  tmp_dmx_data : BytePtr
  current_rx_addr : Nat
  isAllZero : Bool
  CptAllZeroFrame : Nat
  last_dmx_packet : Int
  deriving DecidableEq, Repr

namespace DMX

/-- The static initialisers of dmx.cpp 62-76. -/
def initial : DMX :=
  { dmx_state := .DMX_IDLE, _StartDMXAddr := 1, _NbChannels := 512,
    dmx_data := none, tmp_dmx_data := none, current_rx_addr := 0,
    isAllZero := true, CptAllZeroFrame := 0, last_dmx_packet := 0 }

/-- Buffer management, dmx.cpp 172-198. -/
def createBuffer (junk : Nat → Nat) (TmpBufferCreate : Bool) (s : DMX) : Option DMX :=
  -- free the temporary buffer when it is no longer needed
  let tmp0 : BytePtr := if !TmpBufferCreate && s.tmp_dmx_data.isSome then none else s.tmp_dmx_data
  -- realloc or malloc of _NbChannels+1 bytes
  let data0 : BytePtr :=
    match s.dmx_data with
    | some old => some (realloc junk old (s._NbChannels + 1))
    | none => some (malloc junk (s._NbChannels + 1))
  (memset data0 0 (s._NbChannels + 1)).bind (fun data1 =>
    let tmp1 : BytePtr :=
      if TmpBufferCreate then
        match tmp0 with
        | some old => some (realloc junk old (s._NbChannels + 1))
        | none => some (malloc junk (s._NbChannels + 1))
      else tmp0
    some { s with dmx_data := some data1, tmp_dmx_data := tmp1 })

/-- The part of `Initialize` that touches the state, dmx.cpp 137-168 (the UART
and task set-up has no effect on the static members). -/
def Initialize (junk : Nat → Nat) (direction : DMXDirection) (StartAddr NbChannels : Nat)
    (s : DMX) : Option DMX :=
  if direction = .DMX_DIR_OUTPUT then
    (createBuffer junk false { s with _StartDMXAddr := 1, _NbChannels := 512 }).bind
      (fun s1 => some { s1 with dmx_state := .DMX_OUTPUT })
  else
    (createBuffer junk true { s with _StartDMXAddr := StartAddr, _NbChannels := NbChannels }).bind
      (fun s1 => some { s1 with dmx_state := .DMX_IDLE })

/-- Start-address setter, dmx.cpp 204-223. -/
def SetDmxStartAdress (StartAddr : Nat) (s : DMX) : DMX :=
  if s.dmx_state = .DMX_OUTPUT then s
  else if StartAddr = s._StartDMXAddr then s
  else if StartAddr = 0 ∨ StartAddr > 512 then s
  else if StartAddr + s._NbChannels > 513 then s
  else { s with _StartDMXAddr := StartAddr }

/-- Channel-count setter, dmx.cpp 225-244. -/
def SetDmxNbChannels (junk : Nat → Nat) (nb : Nat) (s : DMX) : Option DMX :=
  if s.dmx_state = .DMX_OUTPUT then some s
  else if nb = s._NbChannels then some s
  else if nb = 0 ∨ nb > 512 then some s
  else if s._StartDMXAddr + nb > 513 then some s
  else createBuffer junk true { s with _NbChannels := nb }

/-- Single-channel read, dmx.cpp 246-263: the byte returned and the state
afterwards. -/
def Read (s : DMX) (channel : Nat) : Option (Nat × DMX) :=
  if channel < 1 ∨ channel > s._NbChannels then some (0, s)
  else (loadByte s.dmx_data channel).bind (fun tmp_dmx => some (tmp_dmx, s))

/-- Block read, dmx.cpp 265-279: the caller's buffer `data` and the state
afterwards. -/
def ReadAll (s : DMX) (data : List Nat) (start size : Nat) : Option (List Nat × DMX) :=
  if start < 1 ∨ start > s._NbChannels ∨ (start + size) % SIZE_T_RANGE > s._NbChannels + 1 then
    some (data, s)
  else
    (memcpy (some data) 0 s.dmx_data start size).bind (fun data1 => some (data1, s))

/-- Single-channel write, dmx.cpp 281-296. -/
def Write (s : DMX) (channel value : Nat) : Option DMX :=
  if channel < 1 ∨ channel > 512 then some s
  else (storeByte s.dmx_data channel value).bind (fun d => some { s with dmx_data := some d })

/-- Block write, dmx.cpp 298-312. -/
def WriteAll (s : DMX) (data : List Nat) (start size : Nat) : Option DMX :=
  if start < 1 ∨ start > 512 ∨ (start + size) % SIZE_T_RANGE > 513 then some s
  else
    (memcpy s.dmx_data start (some data) 0 size).bind (fun d => some { s with dmx_data := some d })

/-- Health query, dmx.cpp 314-331, at tick count `now`: the value returned and
the state afterwards.  `xTaskGetTickCount()` is a 32-bit unsigned `TickType_t`
and `dmx_timeout` a 32-bit `long`, so the difference is formed in 32-bit
unsigned arithmetic before it is compared with `HEALTHY_TIME`. -/
def IsHealthy (now : Nat) (s : DMX) : Nat × DMX :=
  let dmx_timeout : Int := s.last_dmx_packet
  if (((now % 2 ^ 32 : Nat) : Int) - dmx_timeout) % 2 ^ 32 < (HEALTHY_TIME : Int) then (1, s)
  else (0, s)

/-! ### The transmit task, dmx.cpp 333-359 -/

/-- What one iteration of the transmit loop asks of the UART driver, in order:
`uart_wait_tx_done`, `uart_set_line_inverse` (with `UART_SIGNAL_TXD_INV`, which
inverts the TX line, or with 0), `ets_delay_us` and `uart_write_bytes`. -/
inductive TxOp where
  | wait_tx_done (ticks : Nat)
  | set_line_inverse (txdInverted : Bool)
  | delay_us (us : Nat)
  | write_bytes (bytes : List Nat)
  deriving DecidableEq, Repr

/-- One iteration of the loop of `uart_send_task`, dmx.cpp 338-357: the driver
calls it makes and the state afterwards.  `uart_write_bytes` is taken to push
all the bytes it is given. -/
def uart_send_iteration (s : DMX) : Option (List TxOp × DMX) :=
  let start_code : Nat := 0
  (readBytes s.dmx_data 1 512).bind (fun channels =>
    some ([TxOp.wait_tx_done 1000,
           TxOp.set_line_inverse true,
           TxOp.delay_us 184,
           TxOp.set_line_inverse false,
           TxOp.delay_us 24,
           TxOp.write_bytes [start_code],
           TxOp.write_bytes channels], s))

/-- The bytes handed to the byte sink by a sequence of driver calls. -/
def sinkBytes : List TxOp → List Nat
  | [] => []
  | TxOp.write_bytes bytes :: rest => bytes ++ sinkBytes rest
  | _ :: rest => sinkBytes rest

/-! ### The receive task, dmx.cpp 361-521 -/

/-- One iteration of the copy loop, dmx.cpp 417-441, for the byte `dtmp[i] = b`. -/
def rxByte (s : DMX) (b : Nat) : Option DMX :=
  if s.current_rx_addr < 513 then
    let s1 := { s with isAllZero := s.isAllZero && (b == 0) }
    let stored : Option DMX :=
      if s1.current_rx_addr ≥ s1._StartDMXAddr ∧
          s1.current_rx_addr < s1._StartDMXAddr + s1._NbChannels then
        (storeByte s1.tmp_dmx_data (s1.current_rx_addr - s1._StartDMXAddr + 1) b).bind
          (fun t => some { s1 with tmp_dmx_data := some t })
      else some s1
    stored.bind (fun s2 =>
      let s3 := { s2 with current_rx_addr := s2.current_rx_addr + 1 }
      if s3.current_rx_addr = 513 then some { s3 with dmx_state := .DMX_DONE } else some s3)
  else some { s with dmx_state := .DMX_DONE }

/-- The copy loop `for (i = 0; i < event.size; i++)`, dmx.cpp 417-441. -/
def rxLoop : List Nat → DMX → Option DMX
  | [], s => some s
  | b :: bs, s => (rxByte s b).bind (rxLoop bs)

/-- The case `UART_DATA`, dmx.cpp 380-446.  `uart_read_bytes` puts the
`event.size` bytes of the payload into the staging buffer `dtmp`, which is
zeroed before every event: `dtmp[i]` is payload byte `i`, and `dtmp[0]` is 0 when
the payload is empty.  The capacity of `dtmp` (`BUF_SIZE`) is not modelled: the
driver is taken to deliver at most that many bytes per event. -/
def onData (now : Nat) (payload : List Nat) (s : DMX) : Option DMX :=
  let s1 : DMX :=
    if s.dmx_state = .DMX_BREAK then
      if payload.headD 0 = 0 then
        { s with dmx_state := .DMX_DATA, current_rx_addr := 0, last_dmx_packet := toLong now }
      else { s with dmx_state := .DMX_IDLE }
    else s
  if s1.dmx_state = .DMX_DATA then rxLoop payload s1 else some s1

/-- The case `UART_BREAK`, dmx.cpp 447-506. -/
def onBreak (s : DMX) : Option DMX :=
  if s.dmx_state = .DMX_DONE ∨ s.dmx_state = .DMX_DATA then
    let s1 := { s with dmx_state := .DMX_BREAK }
    if !s1.isAllZero then
      (memcpy s1.dmx_data 0 s1.tmp_dmx_data 0 (s1._NbChannels + 1)).bind (fun d =>
        some { s1 with dmx_data := some d, isAllZero := true, CptAllZeroFrame := 0 })
    else
      let s2 := { s1 with CptAllZeroFrame := (s1.CptAllZeroFrame + 1) % 256 }
      if s2.CptAllZeroFrame ≥ NBZEROFRAME_TRIGGER_BLACKOUT then
        (memset s2.dmx_data 0 (s2._NbChannels + 1)).bind (fun d =>
          some { s2 with dmx_data := some d, CptAllZeroFrame := 0, isAllZero := true })
      else some { s2 with isAllZero := true }
  else if s.dmx_state = .DMX_IDLE then some { s with dmx_state := .DMX_BREAK }
  else some { s with dmx_state := .DMX_IDLE }

/-- One iteration of the event loop of `uart_event_task`, dmx.cpp 372-519:
`now` is the tick count at that moment. -/
def uart_event_step (now : Nat) (event : uart_event_t) (s : DMX) : Option DMX :=
  match event with
  | .UART_DATA payload => onData now payload s
  | .UART_BREAK => onBreak s
  | _ => some { s with dmx_state := .DMX_IDLE }

/-- A sequence of iterations of the event loop, each event with its tick. -/
def run : List (Nat × uart_event_t) → DMX → Option DMX
  | [], s => some s
  | (now, ev) :: rest, s => (uart_event_step now ev s).bind (run rest)

/-- The buffers are allocated as `createBuffer(true)` leaves them: both hold
`_NbChannels + 1` slots. -/
def Allocated (s : DMX) : Prop :=
  s.dmx_data.map List.length = some (s._NbChannels + 1) ∧
  s.tmp_dmx_data.map List.length = some (s._NbChannels + 1)

instance (s : DMX) : Decidable (Allocated s) :=
  inferInstanceAs (Decidable (_ ∧ _))

/-- The receive state is inside a frame: collecting bytes, or saturated with
the cursor at 513 or beyond. -/
def InFrame (s : DMX) : Prop :=
  s.dmx_state = .DMX_DATA ∨ (s.dmx_state = .DMX_DONE ∧ 513 ≤ s.current_rx_addr)

instance (s : DMX) : Decidable (InFrame s) :=
  inferInstanceAs (Decidable (_ ∨ _))

/-- The validated buffer holds the window of a frame: for every local index
`i` in `[1, _NbChannels]` whose channel `_StartDMXAddr + i - 1` the frame
reaches, `Read(i)` returns the byte the frame carries at that position
(position 0 is the start code). -/
def HoldsWindowOf (s : DMX) (frame : List Nat) : Prop :=
  ∀ i, 1 ≤ i → i ≤ s._NbChannels → s._StartDMXAddr + i - 1 < frame.length →
    ∃ v, frame[s._StartDMXAddr + i - 1]? = some v ∧ Read s i = some (v, s)

/-- A sequence of calls `Write(c, v)`, one per pair of the list. -/
def writes : List (Nat × Nat) → DMX → Option DMX
  | [], s => some s
  | (c, v) :: rest, s => (Write s c v).bind (writes rest)

/-- The data events of one frame: each chunk of bytes arrives as one
`UART_DATA` event, with the tick at which it is processed. -/
def dataEvents (chunks : List (Nat × List Nat)) : List (Nat × uart_event_t) :=
  chunks.map (fun p => (p.1, uart_event_t.UART_DATA p.2))

/-- The bytes of a frame: the concatenation of its chunks. -/
def frameBytes (chunks : List (Nat × List Nat)) : List Nat :=
  (chunks.map Prod.snd).flatten

/-- The events of one received frame, after the break that opened it: its data
events and the break that closes it. -/
def frameEvents (chunks : List (Nat × List Nat)) (tBreak : Nat) : List (Nat × uart_event_t) :=
  dataEvents chunks ++ [(tBreak, uart_event_t.UART_BREAK)]

/-- The events of consecutive frames, each closed by its break (which opens the
next one). -/
def framesEvents : List (List (Nat × List Nat) × Nat) → List (Nat × uart_event_t)
  | [] => []
  | (chunks, tBreak) :: rest => frameEvents chunks tBreak ++ framesEvents rest

/-- The blackout filter in the words of the specification (section 4.3): given
whether the frame was all zero, the validated buffer, the scratch buffer and the
zero-frame counter, the new validated buffer and counter.  A frame that was not
all zero is promoted and resets the counter; an all-zero frame increments the
counter and, when it reaches 12, zeroes the validated buffer and resets the
counter; below the threshold the validated buffer is left untouched. -/
def specBlackoutFilter (wasAllZero : Bool) (validated scratch : List Nat) (counter : Nat) :
    List Nat × Nat :=
  if wasAllZero then
    if counter + 1 ≥ 12 then (List.replicate validated.length 0, 0)
    else (validated, counter + 1)
  else (scratch, 0)

set_option maxRecDepth 4000 in
/-- The states an input-mode endpoint can be in: `Initialize(DMX_DIR_INPUT, a, n)`
called on the static initial state, followed by receive events and calls of the
two window setters, in any order. -/
inductive ReachableInput : DMX → Prop where
  | init (junk : Nat → Nat) (a n : Nat) (s : DMX) :
      Initialize junk .DMX_DIR_INPUT a n initial = some s → ReachableInput s
  | event (now : Nat) (ev : uart_event_t) (s s1 : DMX) :
      ReachableInput s → uart_event_step now ev s = some s1 → ReachableInput s1
  | setStart (a : Nat) (s s1 : DMX) :
      ReachableInput s → SetDmxStartAdress a s = s1 → ReachableInput s1
  | setNb (junk : Nat → Nat) (n : Nat) (s s1 : DMX) :
      ReachableInput s → SetDmxNbChannels junk n s = some s1 → ReachableInput s1

/-- What holds of the receive cursor in every reachable input-mode state: the
buffers are allocated, the cursor is at most 513, it is below 513 while bytes
are collected and exactly 513 in `DMX_DONE`. -/
def CursorInv (s : DMX) : Prop :=
  Allocated s ∧ s.current_rx_addr ≤ 513 ∧
  (s.dmx_state = .DMX_DATA → s.current_rx_addr < 513) ∧
  (s.dmx_state = .DMX_DONE → s.current_rx_addr = 513) ∧
  s.dmx_state ≠ .DMX_OUTPUT

/-! ### Example states and frames, used to instantiate the theorems -/

/-- An input-mode endpoint listening to channels 3 to 6, as
`Initialize(DMX_DIR_INPUT, 3, 4)` leaves it on zeroed memory. -/
def exampleInput : DMX :=
  { dmx_state := .DMX_IDLE, _StartDMXAddr := 3, _NbChannels := 4,
    dmx_data := some [0, 0, 0, 0, 0], tmp_dmx_data := some [0, 0, 0, 0, 0],
    current_rx_addr := 0, isAllZero := true, CptAllZeroFrame := 0, last_dmx_packet := 0 }

/-- The same endpoint after a frame was promoted and the next break was seen. -/
def exampleBreak : DMX :=
  { exampleInput with
    dmx_state := .DMX_BREAK, dmx_data := some [0, 10, 20, 30, 40],
    tmp_dmx_data := some [0, 10, 20, 30, 40], current_rx_addr := 7 }

/-- The state `exampleInput` after its first break. -/
def exampleOpened : DMX :=
  { exampleInput with dmx_state := .DMX_BREAK }

/-- The same endpoint while it collects a frame in which a non-zero byte was
seen. -/
def exampleCollecting : DMX :=
  { exampleBreak with
    dmx_state := .DMX_DATA, isAllZero := false, tmp_dmx_data := some [0, 1, 2, 3, 4] }

/-- An output-mode endpoint whose 512 channels are all at 9. -/
def exampleOutput : DMX :=
  { initial with
    dmx_state := .DMX_OUTPUT, dmx_data := some (0 :: List.replicate 512 9) }

/-- Twelve all-zero frames, each delivered in two data events. -/
def exampleZeroFrames : List (List (Nat × List Nat) × Nat) :=
  List.replicate 12 ([(0, [0, 0]), (1, [0, 0, 0, 0, 0])], 2)

end DMX

/-! ## Memory-model lemmas -/

theorem malloc_length (junk : Nat → Nat) (n : Nat) : (malloc junk n).length = n := by
  simp [malloc]

theorem realloc_length (junk : Nat → Nat) (old : List Nat) (n : Nat) :
    (realloc junk old n).length = n := by
  simp [realloc]

theorem memset_full (d : List Nat) (v n : Nat) (h : d.length = n) :
    memset (some d) v n = some (List.replicate n v) := by
  simp [memset, h]

theorem storeByte_some (d : List Nat) (i v : Nat) (h : i < d.length) :
    storeByte (some d) i v = some (d.set i v) := by
  simp [storeByte, h]

theorem storeByte_oob (d : List Nat) (i v : Nat) (h : d.length ≤ i) :
    storeByte (some d) i v = none := by
  simp [storeByte]; omega

theorem loadByte_some (d : List Nat) (i : Nat) : loadByte (some d) i = d[i]? := by
  simp [loadByte]

namespace DMX

/-- What `createBuffer` leaves behind: a zeroed validated buffer of
`_NbChannels + 1` slots and, when asked for, a scratch buffer of the same size. -/
theorem createBuffer_eq (junk : Nat → Nat) (tmpCreate : Bool) (s : DMX) :
    createBuffer junk tmpCreate s =
      some { s with
        dmx_data := some (List.replicate (s._NbChannels + 1) 0),
        tmp_dmx_data :=
          if tmpCreate then
            match s.tmp_dmx_data with
            | some old => some (realloc junk old (s._NbChannels + 1))
            | none => some (malloc junk (s._NbChannels + 1))
          else none } := by
  unfold createBuffer
  cases hd : s.dmx_data <;> cases ht : s.tmp_dmx_data <;> cases tmpCreate <;>
    simp [memset_full, malloc_length, realloc_length]

theorem createBuffer_allocated (junk : Nat → Nat) (s : DMX) :
    ∃ s1, createBuffer junk true s = some s1 ∧ Allocated s1 ∧
      s1._NbChannels = s._NbChannels ∧ s1._StartDMXAddr = s._StartDMXAddr ∧
      s1.dmx_state = s.dmx_state := by
  refine ⟨_, createBuffer_eq junk true s, ?_, rfl, rfl, rfl⟩
  cases ht : s.tmp_dmx_data <;> simp [Allocated, ht, malloc_length, realloc_length]

end DMX

namespace DMX

/-! ## Initialisation -/

theorem Initialize_output_eq (junk : Nat → Nat) (a n : Nat) (s : DMX) :
    Initialize junk .DMX_DIR_OUTPUT a n s =
      some { s with
        dmx_state := .DMX_OUTPUT, _StartDMXAddr := 1, _NbChannels := 512,
        dmx_data := some (List.replicate (512 + 1) 0), tmp_dmx_data := none } := by
  unfold Initialize
  rw [if_pos rfl, createBuffer_eq]
  rfl

theorem Initialize_input_eq (junk : Nat → Nat) (a n : Nat) (s : DMX) :
    Initialize junk .DMX_DIR_INPUT a n s =
      some { s with
        dmx_state := .DMX_IDLE, _StartDMXAddr := a, _NbChannels := n,
        dmx_data := some (List.replicate (n + 1) 0),
        tmp_dmx_data :=
          match s.tmp_dmx_data with
          | some old => some (realloc junk old (n + 1))
          | none => some (malloc junk (n + 1)) } := by
  unfold Initialize
  rw [if_neg (by decide), createBuffer_eq]
  rfl

theorem Initialize_output_universe (junk : Nat → Nat) (a n : Nat) (s0 : DMX) :
    ∃ s d, Initialize junk .DMX_DIR_OUTPUT a n s0 = some s ∧
      s.dmx_state = .DMX_OUTPUT ∧ s._StartDMXAddr = 1 ∧ s._NbChannels = 512 ∧
      s.dmx_data = some d ∧ d.length = 513 ∧ s.tmp_dmx_data = none :=
  ⟨_, _, Initialize_output_eq junk a n s0, rfl, rfl, rfl, rfl, List.length_replicate _ _, rfl⟩

/-! ## Accesses that leave the validated buffer -/

theorem Write_overrun (s : DMX) (d : List Nat) (c v : Nat) (hd : s.dmx_data = some d)
    (hguard : ¬ (c < 1 ∨ c > 512)) (hc : d.length ≤ c) : Write s c v = none := by
  unfold Write
  rw [if_neg hguard, hd, storeByte_oob d c v hc]
  rfl

theorem ReadAll_overrun (s : DMX) (d dst : List Nat) (start size : Nat)
    (hd : s.dmx_data = some d)
    (hguard : ¬ (start < 1 ∨ start > s._NbChannels ∨
      (start + size) % SIZE_T_RANGE > s._NbChannels + 1))
    (hc : d.length < start + size) : ReadAll s dst start size = none := by
  unfold ReadAll
  rw [if_neg hguard, hd]
  have : ¬ (0 + size ≤ dst.length ∧ start + size ≤ d.length) := by omega
  simp only [memcpy, Option.some_bind, Option.bind_eq_bind, if_neg this]
  rfl

theorem WriteAll_overrun (s : DMX) (d src : List Nat) (start size : Nat)
    (hd : s.dmx_data = some d)
    (hguard : ¬ (start < 1 ∨ start > 512 ∨ (start + size) % SIZE_T_RANGE > 513))
    (hc : d.length < start + size) : WriteAll s src start size = none := by
  unfold WriteAll
  rw [if_neg hguard, hd]
  have : ¬ (start + size ≤ d.length ∧ 0 + size ≤ src.length) := by omega
  simp only [memcpy, Option.some_bind, Option.bind_eq_bind, if_neg this]
  rfl

/-! ## Single-channel accesses -/

theorem Write_in_range (s : DMX) (d : List Nat) (c v : Nat) (hd : s.dmx_data = some d)
    (h1 : 1 ≤ c) (h2 : c ≤ 512) (hc : c < d.length) :
    Write s c v = some { s with dmx_data := some (d.set c v) } := by
  unfold Write
  rw [if_neg (by omega), hd, storeByte_some d c v hc]
  rfl

theorem Write_rejected (s : DMX) (c v : Nat) (h : c < 1 ∨ c > 512) : Write s c v = some s := by
  unfold Write
  rw [if_pos h]

/-- In a state whose validated buffer has 513 slots every `Write` succeeds and
keeps the window and the size of the buffer. -/
theorem Write_keeps_universe (s : DMX) (d : List Nat) (c v : Nat)
    (hd : s.dmx_data = some d) (hlen : d.length = 513) :
    ∃ s1 d1, Write s c v = some s1 ∧ s1.dmx_data = some d1 ∧ d1.length = 513 ∧
      s1._NbChannels = s._NbChannels ∧ s1._StartDMXAddr = s._StartDMXAddr ∧
      s1.dmx_state = s.dmx_state := by
  by_cases h : c < 1 ∨ c > 512
  · exact ⟨s, d, Write_rejected s c v h, hd, hlen, rfl, rfl, rfl⟩
  · refine ⟨_, d.set c v, Write_in_range s d c v hd (by omega) (by omega) (by omega), rfl, ?_,
      rfl, rfl, rfl⟩
    rw [List.length_set, hlen]

theorem writes_keeps_universe (ws : List (Nat × Nat)) :
    ∀ (s : DMX) (d : List Nat), s.dmx_data = some d → d.length = 513 →
    ∃ s1 d1, writes ws s = some s1 ∧ s1.dmx_data = some d1 ∧ d1.length = 513 ∧
      s1._NbChannels = s._NbChannels ∧ s1._StartDMXAddr = s._StartDMXAddr ∧
      s1.dmx_state = s.dmx_state := by
  induction ws with
  | nil => intro s d hd hlen; exact ⟨s, d, rfl, hd, hlen, rfl, rfl, rfl⟩
  | cons w ws ih =>
    intro s d hd hlen
    obtain ⟨c, v⟩ := w
    obtain ⟨s1, d1, hw, hd1, hlen1, hn1, ha1, hm1⟩ := Write_keeps_universe s d c v hd hlen
    obtain ⟨s2, d2, hws, hd2, hlen2, hn2, ha2, hm2⟩ := ih s1 d1 hd1 hlen1
    refine ⟨s2, d2, ?_, hd2, hlen2, hn2.trans hn1, ha2.trans ha1, hm2.trans hm1⟩
    simp only [writes, hw, Option.some_bind, Option.bind_eq_bind, hws]

/-- What `Read` returns for an addressed channel of an allocated buffer. -/
theorem Read_in_range (s : DMX) (d : List Nat) (c : Nat) (hd : s.dmx_data = some d)
    (h1 : 1 ≤ c) (h2 : c ≤ s._NbChannels) (hc : c < d.length) :
    Read s c = some (d[c], s) := by
  unfold Read
  rw [if_neg (by omega), hd]
  simp [loadByte, hc]

theorem Read_rejected (s : DMX) (c : Nat) (h : c < 1 ∨ c > s._NbChannels) :
    Read s c = some (0, s) := by
  unfold Read
  rw [if_pos h]

/-! ## The copy loop of the receive task -/

/-- One iteration of the copy loop on a state whose scratch buffer holds
`_NbChannels + 1` slots: the store always lands inside the buffer. -/
theorem rxByte_eq (s : DMX) (t : List Nat) (b : Nat) (ht : s.tmp_dmx_data = some t)
    (hlen : t.length = s._NbChannels + 1) :
    rxByte s b = some
      (if s.current_rx_addr < 513 then
        { s with
          isAllZero := s.isAllZero && (b == 0),
          tmp_dmx_data := some
            (if s._StartDMXAddr ≤ s.current_rx_addr ∧
                s.current_rx_addr < s._StartDMXAddr + s._NbChannels then
              t.set (s.current_rx_addr - s._StartDMXAddr + 1) b
            else t),
          current_rx_addr := s.current_rx_addr + 1,
          dmx_state := if s.current_rx_addr + 1 = 513 then .DMX_DONE else s.dmx_state }
      else { s with dmx_state := .DMX_DONE }) := by
  unfold rxByte
  by_cases hc : s.current_rx_addr < 513
  · simp only [if_pos hc]
    by_cases hw : s._StartDMXAddr ≤ s.current_rx_addr ∧
        s.current_rx_addr < s._StartDMXAddr + s._NbChannels
    · have hi : s.current_rx_addr - s._StartDMXAddr + 1 < t.length := by omega
      simp only [ge_iff_le, if_pos hw, ht, storeByte_some t _ b hi, Option.some_bind,
        Option.bind_eq_bind]
      split_ifs <;> rfl
    · simp only [ge_iff_le, if_neg hw, Option.some_bind, Option.bind_eq_bind]
      split_ifs
      · rw [← ht]
      · rw [← ht]
  · simp only [if_neg hc]

/-- The effect of one iteration of the copy loop, field by field. -/
theorem rxByte_step (s : DMX) (t : List Nat) (b : Nat) (ht : s.tmp_dmx_data = some t)
    (hlen : t.length = s._NbChannels + 1) :
    ∃ s1 t1, rxByte s b = some s1 ∧ s1.tmp_dmx_data = some t1 ∧
      s1.dmx_data = s.dmx_data ∧ s1._StartDMXAddr = s._StartDMXAddr ∧
      s1._NbChannels = s._NbChannels ∧ s1.CptAllZeroFrame = s.CptAllZeroFrame ∧
      s1.last_dmx_packet = s.last_dmx_packet ∧
      t1 = (if s.current_rx_addr < 513 ∧ s._StartDMXAddr ≤ s.current_rx_addr ∧
              s.current_rx_addr < s._StartDMXAddr + s._NbChannels then
            t.set (s.current_rx_addr - s._StartDMXAddr + 1) b else t) ∧
      s1.current_rx_addr =
        (if s.current_rx_addr < 513 then s.current_rx_addr + 1 else s.current_rx_addr) ∧
      s1.isAllZero =
        (if s.current_rx_addr < 513 then s.isAllZero && (b == 0) else s.isAllZero) ∧
      s1.dmx_state =
        (if s.current_rx_addr < 513 then
          (if s.current_rx_addr + 1 = 513 then .DMX_DONE else s.dmx_state)
        else .DMX_DONE) := by
  rw [rxByte_eq s t b ht hlen]
  by_cases hc : s.current_rx_addr < 513
  · rw [if_pos hc]
    refine ⟨_, _, rfl, rfl, rfl, rfl, rfl, rfl, rfl, ?_, ?_, ?_, ?_⟩
    · simp only [hc, true_and]
    · simp only [hc, if_true]
    · simp only [hc, if_true]
    · simp only [hc, if_true]
  · rw [if_neg hc]
    refine ⟨_, t, rfl, ht, rfl, rfl, rfl, rfl, rfl, ?_, ?_, ?_, ?_⟩
    · simp only [hc, false_and, if_false]
    · simp only [hc, if_false]
    · simp only [hc, if_false]
    · simp only [hc, if_false]

theorem rxByte_step_length (s : DMX) (t : List Nat) (b : Nat) :
    (if s.current_rx_addr < 513 ∧ s._StartDMXAddr ≤ s.current_rx_addr ∧
        s.current_rx_addr < s._StartDMXAddr + s._NbChannels then
      t.set (s.current_rx_addr - s._StartDMXAddr + 1) b else t).length = t.length := by
  split_ifs <;> simp

/-- Frame conditions of the copy loop, for a payload of any length: it
terminates without leaving the scratch buffer, and touches neither the
validated buffer, the window, the zero-frame counter nor the timestamp. -/
theorem rxLoop_frame (bs : List Nat) :
    ∀ (s : DMX) (t : List Nat), s.tmp_dmx_data = some t → t.length = s._NbChannels + 1 →
    ∃ s1 t1, rxLoop bs s = some s1 ∧ s1.tmp_dmx_data = some t1 ∧ t1.length = t.length ∧
      s1.dmx_data = s.dmx_data ∧ s1._StartDMXAddr = s._StartDMXAddr ∧
      s1._NbChannels = s._NbChannels ∧ s1.CptAllZeroFrame = s.CptAllZeroFrame ∧
      s1.last_dmx_packet = s.last_dmx_packet ∧
      (InFrame s → InFrame s1) ∧
      (s.isAllZero = true → (∀ b ∈ bs, b = 0) → s1.isAllZero = true) := by
  induction bs with
  | nil =>
    intro s t ht hlen
    exact ⟨s, t, rfl, ht, rfl, rfl, rfl, rfl, rfl, rfl, id, fun h _ => h⟩
  | cons b bs ih =>
    intro s t ht hlen
    obtain ⟨s1, t1, hstep, ht1, hd1, ha1, hn1, hcpt1, hlast1, htv, hcur, hz1, hst⟩ :=
      rxByte_step s t b ht hlen
    have hlen1 : t1.length = t.length := by rw [htv]; exact rxByte_step_length s t b
    obtain ⟨s2, t2, hrun, ht2, hlen2, hd2, ha2, hn2, hcpt2, hlast2, hfr, hz2⟩ :=
      ih s1 t1 ht1 (by rw [hlen1, hlen, hn1])
    refine ⟨s2, t2, ?_, ht2, hlen2.trans hlen1, hd2.trans hd1, ha2.trans ha1, hn2.trans hn1,
      hcpt2.trans hcpt1, hlast2.trans hlast1, ?_, ?_⟩
    · simp only [rxLoop, hstep, Option.some_bind, Option.bind_eq_bind, hrun]
    · intro hin
      apply hfr
      unfold InFrame at hin ⊢
      rw [hst, hcur]
      by_cases hc : s.current_rx_addr < 513
      · rw [if_pos hc, if_pos hc]
        by_cases h513 : s.current_rx_addr + 1 = 513
        · right
          rw [if_pos h513]
          exact ⟨rfl, by omega⟩
        · left
          rw [if_neg h513]
          rcases hin with h | ⟨_, h⟩
          · exact h
          · omega
      · rw [if_neg hc, if_neg hc]
        right
        exact ⟨rfl, by omega⟩
    · intro hz0 hall
      apply hz2
      · rw [hz1]
        split_ifs
        · simp [hz0, hall b (List.mem_cons_self _ _)]
        · exact hz0
      · intro x hx; exact hall x (List.mem_cons_of_mem _ hx)

/-- What the copy loop stores, for a payload that does not run past cursor 513:
every byte whose cursor lies in the window lands at its local index, the slots
below the first local index stay as they were, the cursor advances by the length
of the payload and the all-zero flag accumulates every byte. -/
theorem rxLoop_window (bs : List Nat) :
    ∀ (s : DMX) (t : List Nat), s.tmp_dmx_data = some t → t.length = s._NbChannels + 1 →
    s.current_rx_addr + bs.length ≤ 513 →
    ∃ s1 t1, rxLoop bs s = some s1 ∧ s1.tmp_dmx_data = some t1 ∧
      s1.current_rx_addr = s.current_rx_addr + bs.length ∧
      s1.isAllZero = (s.isAllZero && bs.all (fun b => b == 0)) ∧
      (∀ k, s.current_rx_addr ≤ k → k < s.current_rx_addr + bs.length →
        s._StartDMXAddr ≤ k → k < s._StartDMXAddr + s._NbChannels →
        t1[k - s._StartDMXAddr + 1]? = bs[k - s.current_rx_addr]?) ∧
      (∀ j, j < s.current_rx_addr - s._StartDMXAddr + 1 → t1[j]? = t[j]?) := by
  induction bs with
  | nil =>
    intro s t ht hlen _
    refine ⟨s, t, rfl, ht, rfl, by simp, ?_, fun _ _ => rfl⟩
    intro k h1 h2
    simp only [List.length_nil, Nat.add_zero] at h2
    omega
  | cons b bs ih =>
    intro s t ht hlen hfit
    simp only [List.length_cons] at hfit
    have hc : s.current_rx_addr < 513 := by omega
    obtain ⟨s1, t1, hstep, ht1, -, ha1, hn1, -, -, htv, hcur, hz1, -⟩ :=
      rxByte_step s t b ht hlen
    rw [if_pos hc] at hcur hz1
    have hlen1 : t1.length = t.length := by rw [htv]; exact rxByte_step_length s t b
    obtain ⟨s2, t2, hrun, ht2, hcur2, hz2, hwin, hlow⟩ :=
      ih s1 t1 ht1 (by rw [hlen1, hlen, hn1]) (by rw [hcur]; omega)
    simp only [ha1, hn1, hcur] at hwin hlow
    refine ⟨s2, t2, ?_, ht2, ?_, ?_, ?_, ?_⟩
    · simp only [rxLoop, hstep, Option.some_bind, Option.bind_eq_bind, hrun]
    · rw [hcur2, hcur, List.length_cons]; omega
    · rw [hz2, hz1, List.all_cons, Bool.and_assoc]
    · intro k h1 h2 h3 h4
      simp only [List.length_cons] at h2
      by_cases hk : k = s.current_rx_addr
      · subst hk
        have hi : s.current_rx_addr - s._StartDMXAddr + 1 < t.length := by omega
        rw [hlow _ (by omega), htv, if_pos ⟨hc, h3, h4⟩]
        simp [hi]
      · rw [hwin k (by omega) (by omega) h3 h4]
        have : k - s.current_rx_addr = (k - (s.current_rx_addr + 1)) + 1 := by omega
        rw [this, List.getElem?_cons_succ]
    · intro j hj
      rw [hlow j (by omega), htv]
      split_ifs with hw
      · rw [List.getElem?_set_ne]
        omega
      · rfl

/-! ## Event handling -/

theorem Allocated_iff (s : DMX) :
    Allocated s ↔ ∃ d t, s.dmx_data = some d ∧ d.length = s._NbChannels + 1 ∧
      s.tmp_dmx_data = some t ∧ t.length = s._NbChannels + 1 := by
  unfold Allocated
  cases hd : s.dmx_data <;> cases ht : s.tmp_dmx_data <;> simp

theorem memcpy_whole (d t : List Nat) (n : Nat) (hd : d.length = n) (ht : t.length = n) :
    memcpy (some d) 0 (some t) 0 n = some t := by
  have h : 0 + n ≤ d.length ∧ 0 + n ≤ t.length := by omega
  simp only [memcpy, Option.some_bind, Option.bind_eq_bind, if_pos h]
  subst ht
  rw [List.take_zero, List.drop_zero, List.take_of_length_le (Nat.le_refl _),
    List.drop_of_length_le (by omega), List.nil_append, List.append_nil]

theorem rxLoop_append (p q : List Nat) :
    ∀ s : DMX, rxLoop (p ++ q) s = (rxLoop p s).bind (rxLoop q) := by
  induction p with
  | nil => intro s; rfl
  | cons b p ih =>
    intro s
    simp only [List.cons_append, rxLoop]
    cases h : rxByte s b with
    | none => rfl
    | some s1 => exact ih s1

theorem run_append (p q : List (Nat × uart_event_t)) :
    ∀ s : DMX, run (p ++ q) s = (run p s).bind (run q) := by
  induction p with
  | nil => intro s; rfl
  | cons e p ih =>
    intro s
    obtain ⟨now, ev⟩ := e
    simp only [List.cons_append, run]
    cases h : uart_event_step now ev s with
    | none => rfl
    | some s1 => exact ih s1

/-- A break in `DMX_IDLE` only moves to `DMX_BREAK`. -/
theorem onBreak_idle (s : DMX) (hs : s.dmx_state = .DMX_IDLE) :
    onBreak s = some { s with dmx_state := .DMX_BREAK } := by
  simp [onBreak, hs]

/-- A break that closes a frame with a non-zero byte promotes the scratch
buffer. -/
theorem onBreak_promote (s : DMX) (d t : List Nat)
    (hs : s.dmx_state = .DMX_DONE ∨ s.dmx_state = .DMX_DATA) (hz : s.isAllZero = false)
    (hd : s.dmx_data = some d) (hdl : d.length = s._NbChannels + 1)
    (ht : s.tmp_dmx_data = some t) (htl : t.length = s._NbChannels + 1) :
    onBreak s = some { s with
      dmx_state := .DMX_BREAK, dmx_data := some t, isAllZero := true, CptAllZeroFrame := 0 } := by
  unfold onBreak
  simp only [if_pos hs, hz, Bool.not_false, if_true, hd, ht, memcpy_whole d t _ hdl htl,
    Option.some_bind, Option.bind_eq_bind]

/-- A break that closes an all-zero frame below the blackout threshold only
counts it. -/
theorem onBreak_zero_counted (s : DMX)
    (hs : s.dmx_state = .DMX_DONE ∨ s.dmx_state = .DMX_DATA) (hz : s.isAllZero = true)
    (hc : (s.CptAllZeroFrame + 1) % 256 < NBZEROFRAME_TRIGGER_BLACKOUT) :
    onBreak s = some { s with
      dmx_state := .DMX_BREAK, CptAllZeroFrame := (s.CptAllZeroFrame + 1) % 256,
      isAllZero := true } := by
  unfold onBreak
  have hc2 : ¬ ((s.CptAllZeroFrame + 1) % 256 ≥ NBZEROFRAME_TRIGGER_BLACKOUT) := by omega
  simp only [if_pos hs, hz, Bool.not_true, Bool.false_eq_true, if_false, if_neg hc2]

/-- A break that closes an all-zero frame at the blackout threshold zeroes the
validated buffer. -/
theorem onBreak_blackout (s : DMX) (d : List Nat)
    (hs : s.dmx_state = .DMX_DONE ∨ s.dmx_state = .DMX_DATA) (hz : s.isAllZero = true)
    (hc : (s.CptAllZeroFrame + 1) % 256 ≥ NBZEROFRAME_TRIGGER_BLACKOUT)
    (hd : s.dmx_data = some d) (hdl : d.length = s._NbChannels + 1) :
    onBreak s = some { s with
      dmx_state := .DMX_BREAK, dmx_data := some (List.replicate (s._NbChannels + 1) 0),
      CptAllZeroFrame := 0, isAllZero := true } := by
  unfold onBreak
  simp only [if_pos hs, hz, Bool.not_true, Bool.false_eq_true, if_false, if_pos hc, hd,
    memset_full d 0 _ hdl, Option.some_bind, Option.bind_eq_bind]

/-- A data event right after a break, with a null start code (or no byte at
all): the timestamp is taken, the cursor reset and the payload copied. -/
theorem onData_break_null (now : Nat) (p : List Nat) (s : DMX)
    (hs : s.dmx_state = .DMX_BREAK) (hp : p.headD 0 = 0) :
    onData now p s =
      rxLoop p { s with
        dmx_state := .DMX_DATA, current_rx_addr := 0, last_dmx_packet := toLong now } := by
  unfold onData
  rw [if_pos hs, if_pos hp]
  rfl

/-- Saturated states ignore the copy loop. -/
theorem rxLoop_done (p : List Nat) (s : DMX) (hs : s.dmx_state = .DMX_DONE)
    (hc : 513 ≤ s.current_rx_addr) : rxLoop p s = some s := by
  induction p with
  | nil => rfl
  | cons b p ih =>
    have hb : rxByte s b = some s := by
      unfold rxByte
      rw [if_neg (by omega), ← hs]
    simp only [rxLoop, hb, Option.some_bind, Option.bind_eq_bind, ih]

/-- Inside a frame a data event is the copy loop. -/
theorem onData_inFrame (now : Nat) (p : List Nat) (s : DMX) (hin : InFrame s) :
    onData now p s = rxLoop p s := by
  rcases hin with h | ⟨h, hc⟩
  · simp [onData, h]
  · rw [rxLoop_done p s h hc]
    simp [onData, h]

/-! ## Whole frames -/

/-- Inside a frame, a run of data events is one pass of the copy loop over the
concatenated payloads. -/
theorem run_dataEvents_inFrame (chunks : List (Nat × List Nat)) :
    ∀ (s : DMX) (t : List Nat), s.tmp_dmx_data = some t → t.length = s._NbChannels + 1 →
      InFrame s → run (dataEvents chunks) s = rxLoop (frameBytes chunks) s := by
  induction chunks with
  | nil => intro s t _ _ _; rfl
  | cons c chunks ih =>
    intro s t ht hlen hin
    obtain ⟨now, p⟩ := c
    obtain ⟨s1, t1, hrun, ht1, hlen1, -, -, hn1, -, -, hfr, -⟩ := rxLoop_frame p s t ht hlen
    have hstep : uart_event_step now (.UART_DATA p) s = some s1 := by
      show onData now p s = some s1
      rw [onData_inFrame now p s hin, hrun]
    have hbytes : frameBytes ((now, p) :: chunks) = p ++ frameBytes chunks := by
      simp [frameBytes]
    have hev : dataEvents ((now, p) :: chunks) =
        (now, uart_event_t.UART_DATA p) :: dataEvents chunks := rfl
    rw [hbytes, rxLoop_append, hrun, hev]
    simp only [run, hstep, Option.some_bind, Option.bind_eq_bind]
    exact ih s1 t1 ht1 (by rw [hlen1, hlen, hn1]) (hfr hin)

/-- After a break, a non-empty run of data events whose first byte, if any, is
the null start code is one pass of the copy loop from cursor 0, stamped with the
tick of the first event. -/
theorem run_dataEvents_break (now : Nat) (p : List Nat) (chunks : List (Nat × List Nat))
    (s : DMX) (t : List Nat) (ht : s.tmp_dmx_data = some t)
    (hlen : t.length = s._NbChannels + 1) (hs : s.dmx_state = .DMX_BREAK)
    (hp : p.headD 0 = 0) :
    run (dataEvents ((now, p) :: chunks)) s =
      rxLoop (frameBytes ((now, p) :: chunks))
        { s with dmx_state := .DMX_DATA, current_rx_addr := 0, last_dmx_packet := toLong now } := by
  obtain ⟨s1, t1, hrun, ht1, hlen1, -, -, hn1, -, -, hfr, -⟩ :=
    rxLoop_frame p
      { s with dmx_state := .DMX_DATA, current_rx_addr := 0, last_dmx_packet := toLong now }
      t ht hlen
  have hstep : uart_event_step now (.UART_DATA p) s = some s1 := by
    show onData now p s = some s1
    rw [onData_break_null now p s hs hp, hrun]
  have hbytes : frameBytes ((now, p) :: chunks) = p ++ frameBytes chunks := by
    simp [frameBytes]
  have hev : dataEvents ((now, p) :: chunks) =
      (now, uart_event_t.UART_DATA p) :: dataEvents chunks := rfl
  rw [hbytes, rxLoop_append, hrun, hev]
  simp only [run, hstep, Option.some_bind, Option.bind_eq_bind]
  exact run_dataEvents_inFrame chunks s1 t1 ht1 (by rw [hlen1, hlen]; exact congrArg (· + 1) hn1.symm)
    (hfr (Or.inl rfl))

/-- The first chunk of a frame that starts with the null start code starts with
it too, or is empty. -/
theorem first_chunk_null (now : Nat) (p : List Nat) (chunks : List (Nat × List Nat))
    (h : (frameBytes ((now, p) :: chunks)).headD 0 = 0) : p.headD 0 = 0 := by
  cases p with
  | nil => rfl
  | cons b p => simpa [frameBytes] using h

theorem all_zero_false_of_nonzero (bs : List Nat) (h : ∃ b ∈ bs, b ≠ 0) :
    bs.all (fun b => b == 0) = false := by
  obtain ⟨b, hb, hne⟩ := h
  rw [List.all_eq_false]
  exact ⟨b, hb, by simpa using hne⟩

/-- A frame with the null start code and a non-zero byte among its at most 512
channel bytes, received in state `DMX_BREAK`: its data events leave the validated
buffer alone, and the closing break promotes its window and clears the
zero-frame counter. -/
theorem frame_promoted (chunks : List (Nat × List Nat)) (tb : Nat) (s : DMX) (bs : List Nat)
    (hs : s.dmx_state = .DMX_BREAK) (halloc : Allocated s) (hne : chunks ≠ [])
    (hbytes : frameBytes chunks = 0 :: bs) (hN : bs.length ≤ 512)
    (hnz : ∃ b ∈ bs, b ≠ 0) :
    ∃ s1 s2, run (dataEvents chunks) s = some s1 ∧ s1.dmx_data = s.dmx_data ∧
      run (frameEvents chunks tb) s = some s2 ∧
      s2.dmx_state = .DMX_BREAK ∧ s2.isAllZero = true ∧ s2.CptAllZeroFrame = 0 ∧
      Allocated s2 ∧ s2._NbChannels = s._NbChannels ∧ s2._StartDMXAddr = s._StartDMXAddr ∧
      HoldsWindowOf s2 (0 :: bs) := by
  obtain ⟨d, t, hd, hdl, ht, htl⟩ := (Allocated_iff s).1 halloc
  cases chunks with
  | nil => exact absurd rfl hne
  | cons c chunks =>
    obtain ⟨now, p⟩ := c
    have hp : p.headD 0 = 0 := first_chunk_null now p chunks (by rw [hbytes]; rfl)
    have hdata := run_dataEvents_break now p chunks s t ht htl hs hp
    rw [hbytes] at hdata
    obtain ⟨s1, t1, hrun, ht1, hlen1, hd1, ha1, hn1, -, -, hfr, -⟩ :=
      rxLoop_frame (0 :: bs)
        { s with dmx_state := .DMX_DATA, current_rx_addr := 0, last_dmx_packet := toLong now }
        t ht htl
    obtain ⟨s1b, t1b, hrunb, ht1b, -, hz1, hwin, -⟩ :=
      rxLoop_window (0 :: bs)
        { s with dmx_state := .DMX_DATA, current_rx_addr := 0, last_dmx_packet := toLong now }
        t ht htl (by simp only [List.length_cons]; omega)
    have hsame : s1b = s1 := Option.some.inj (hrunb.symm.trans hrun)
    subst hsame
    have ht11 : t1b = t1 := Option.some.inj (ht1b.symm.trans ht1)
    subst ht11
    have hznew : s1b.isAllZero = false := by
      rw [hz1, List.all_cons, all_zero_false_of_nonzero bs hnz]
      simp
    have hstate : s1b.dmx_state = .DMX_DONE ∨ s1b.dmx_state = .DMX_DATA := by
      rcases hfr (Or.inl rfl) with h | ⟨h, _⟩
      · exact Or.inr h
      · exact Or.inl h
    have hn1s : s1b._NbChannels = s._NbChannels := hn1
    have ha1s : s1b._StartDMXAddr = s._StartDMXAddr := ha1
    have hd1s : s1b.dmx_data = s.dmx_data := hd1
    have hlen1s : t1b.length = s1b._NbChannels + 1 := by rw [hlen1, htl, hn1s]
    have hbreak := onBreak_promote s1b d t1b hstate hznew (hd1s.trans hd)
      (by rw [hdl, hn1s]) ht1 hlen1s
    obtain ⟨s2, hb2, hst2, hz2, hc2, hd2, ht2, hn2, ha2⟩ :
        ∃ s2, onBreak s1b = some s2 ∧ s2.dmx_state = .DMX_BREAK ∧ s2.isAllZero = true ∧
          s2.CptAllZeroFrame = 0 ∧ s2.dmx_data = some t1b ∧
          s2.tmp_dmx_data = s1b.tmp_dmx_data ∧ s2._NbChannels = s1b._NbChannels ∧
          s2._StartDMXAddr = s1b._StartDMXAddr :=
      ⟨_, hbreak, rfl, rfl, rfl, rfl, rfl, rfl, rfl⟩
    have hlen2 : t1b.length = s2._NbChannels + 1 := by rw [hn2]; exact hlen1s
    refine ⟨s1b, s2, hdata.trans hrun, hd1s, ?_, hst2, hz2, hc2, ?_, hn2.trans hn1s,
      ha2.trans ha1s, ?_⟩
    · unfold frameEvents
      rw [run_append, hdata, hrun]
      simp only [Option.some_bind, Option.bind_eq_bind, run, uart_event_step, hb2]
    · rw [Allocated_iff]
      exact ⟨t1b, t1b, hd2, hlen2, ht2.trans ht1, hlen2⟩
    · intro i hi1 hi2 hi3
      rw [ha2, ha1s] at hi3
      have hil : i < t1b.length := by rw [hlen2]; omega
      have hslot := hwin (s._StartDMXAddr + i - 1) (Nat.zero_le _)
        (by simpa using hi3) (by show s._StartDMXAddr ≤ _; omega)
        (by show _ < s._StartDMXAddr + s._NbChannels; rw [hn2, hn1s] at hi2; omega)
      have hidx : s._StartDMXAddr + i - 1 - s._StartDMXAddr + 1 = i := by omega
      simp only [hidx, Nat.sub_zero] at hslot
      refine ⟨t1b[i], ?_, ?_⟩
      · rw [ha2, ha1s, ← hslot]
        simp [hil]
      · exact Read_in_range s2 t1b i hd2 hi1 hi2 hil

/-- An all-zero frame received in state `DMX_BREAK` with the all-zero flag set:
the closing break counts it and, only when the count reaches the threshold,
zeroes the validated buffer. -/
theorem frame_zero (chunks : List (Nat × List Nat)) (tb : Nat) (s : DMX)
    (hs : s.dmx_state = .DMX_BREAK) (hz : s.isAllZero = true) (halloc : Allocated s)
    (hne : chunks ≠ []) (hall : ∀ b ∈ frameBytes chunks, b = 0) :
    ∃ s2, run (frameEvents chunks tb) s = some s2 ∧
      s2.dmx_state = .DMX_BREAK ∧ s2.isAllZero = true ∧ Allocated s2 ∧
      s2._NbChannels = s._NbChannels ∧ s2._StartDMXAddr = s._StartDMXAddr ∧
      ((s.CptAllZeroFrame + 1) % 256 < NBZEROFRAME_TRIGGER_BLACKOUT →
        s2.dmx_data = s.dmx_data ∧ s2.CptAllZeroFrame = (s.CptAllZeroFrame + 1) % 256) ∧
      ((s.CptAllZeroFrame + 1) % 256 ≥ NBZEROFRAME_TRIGGER_BLACKOUT →
        s2.dmx_data = some (List.replicate (s._NbChannels + 1) 0) ∧
        s2.CptAllZeroFrame = 0) := by
  obtain ⟨d, t, hd, hdl, ht, htl⟩ := (Allocated_iff s).1 halloc
  cases chunks with
  | nil => exact absurd rfl hne
  | cons c chunks =>
    obtain ⟨now, p⟩ := c
    have hhead : (frameBytes ((now, p) :: chunks)).headD 0 = 0 := by
      cases hfb : frameBytes ((now, p) :: chunks) with
      | nil => rfl
      | cons b rest => exact hall b (by rw [hfb]; exact List.mem_cons_self _ _)
    have hp : p.headD 0 = 0 := first_chunk_null now p chunks hhead
    have hdata := run_dataEvents_break now p chunks s t ht htl hs hp
    obtain ⟨s1, t1, hrun, ht1, hlen1, hd1, ha1, hn1, hc1, -, hfr, hz1⟩ :=
      rxLoop_frame (frameBytes ((now, p) :: chunks))
        { s with dmx_state := .DMX_DATA, current_rx_addr := 0, last_dmx_packet := toLong now }
        t ht htl
    have hzs : s1.isAllZero = true := hz1 hz hall
    have hstate : s1.dmx_state = .DMX_DONE ∨ s1.dmx_state = .DMX_DATA := by
      rcases hfr (Or.inl rfl) with h | ⟨h, _⟩
      · exact Or.inr h
      · exact Or.inl h
    have hn1s : s1._NbChannels = s._NbChannels := hn1
    have ha1s : s1._StartDMXAddr = s._StartDMXAddr := ha1
    have hd1s : s1.dmx_data = s.dmx_data := hd1
    have hc1s : s1.CptAllZeroFrame = s.CptAllZeroFrame := hc1
    have hlen1s : t1.length = s._NbChannels + 1 := by rw [hlen1, htl]
    have hrunAll : ∀ s2, onBreak s1 = some s2 →
        run (frameEvents ((now, p) :: chunks) tb) s = some s2 := by
      intro s2 hb
      unfold frameEvents
      rw [run_append, hdata, hrun]
      simp only [Option.some_bind, Option.bind_eq_bind, run, uart_event_step, hb]
    by_cases hthr : (s.CptAllZeroFrame + 1) % 256 < NBZEROFRAME_TRIGGER_BLACKOUT
    · have hbreak := onBreak_zero_counted s1 hstate hzs (by rw [hc1s]; exact hthr)
      obtain ⟨s2, hb2, hst2, hz2, hc2, hd2, ht2, hn2, ha2⟩ :
          ∃ s2, onBreak s1 = some s2 ∧ s2.dmx_state = .DMX_BREAK ∧ s2.isAllZero = true ∧
            s2.CptAllZeroFrame = (s1.CptAllZeroFrame + 1) % 256 ∧ s2.dmx_data = s1.dmx_data ∧
            s2.tmp_dmx_data = s1.tmp_dmx_data ∧ s2._NbChannels = s1._NbChannels ∧
            s2._StartDMXAddr = s1._StartDMXAddr :=
        ⟨_, hbreak, rfl, rfl, rfl, rfl, rfl, rfl, rfl⟩
      refine ⟨s2, hrunAll s2 hb2, hst2, hz2, ?_, hn2.trans hn1s, ha2.trans ha1s, ?_, ?_⟩
      · rw [Allocated_iff]
        exact ⟨d, t1, hd2.trans (hd1s.trans hd), by rw [hdl, hn2, hn1s], ht2.trans ht1,
          by rw [hlen1s, hn2, hn1s]⟩
      · intro _
        exact ⟨hd2.trans hd1s, by rw [hc2, hc1s]⟩
      · intro h
        exact absurd hthr (by omega)
    · have hge : (s1.CptAllZeroFrame + 1) % 256 ≥ NBZEROFRAME_TRIGGER_BLACKOUT := by
        rw [hc1s]; omega
      have hbreak := onBreak_blackout s1 d hstate hzs hge (hd1s.trans hd) (by rw [hdl, hn1s])
      obtain ⟨s2, hb2, hst2, hz2, hc2, hd2, ht2, hn2, ha2⟩ :
          ∃ s2, onBreak s1 = some s2 ∧ s2.dmx_state = .DMX_BREAK ∧ s2.isAllZero = true ∧
            s2.CptAllZeroFrame = 0 ∧
            s2.dmx_data = some (List.replicate (s1._NbChannels + 1) 0) ∧
            s2.tmp_dmx_data = s1.tmp_dmx_data ∧ s2._NbChannels = s1._NbChannels ∧
            s2._StartDMXAddr = s1._StartDMXAddr :=
        ⟨_, hbreak, rfl, rfl, rfl, rfl, rfl, rfl, rfl⟩
      refine ⟨s2, hrunAll s2 hb2, hst2, hz2, ?_, hn2.trans hn1s, ha2.trans ha1s, ?_, ?_⟩
      · rw [Allocated_iff]
        exact ⟨_, t1, hd2, by rw [List.length_replicate, hn2], ht2.trans ht1,
          by rw [hlen1s, hn2, hn1s]⟩
      · intro h
        exact absurd h hthr
      · intro _
        exact ⟨by rw [hd2, hn1s], hc2⟩

/-- A break that opens a frame (processed in `DMX_IDLE`, `DMX_DATA` or
`DMX_DONE`) leads to `DMX_BREAK` and keeps the buffers allocated and the window. -/
theorem onBreak_opens (s : DMX)
    (hs : s.dmx_state = .DMX_IDLE ∨ s.dmx_state = .DMX_DATA ∨ s.dmx_state = .DMX_DONE)
    (halloc : Allocated s) :
    ∃ s1, onBreak s = some s1 ∧ s1.dmx_state = .DMX_BREAK ∧ Allocated s1 ∧
      s1._NbChannels = s._NbChannels ∧ s1._StartDMXAddr = s._StartDMXAddr := by
  obtain ⟨d, t, hd, hdl, ht, htl⟩ := (Allocated_iff s).1 halloc
  rcases hs with h | h
  · exact ⟨_, onBreak_idle s h, rfl, halloc, rfl, rfl⟩
  · have hst : s.dmx_state = .DMX_DONE ∨ s.dmx_state = .DMX_DATA := by tauto
    cases hz : s.isAllZero with
    | false =>
      refine ⟨_, onBreak_promote s d t hst hz hd hdl ht htl, rfl, ?_, rfl, rfl⟩
      rw [Allocated_iff]
      exact ⟨t, t, rfl, htl, ht, htl⟩
    | true =>
      by_cases hthr : (s.CptAllZeroFrame + 1) % 256 < NBZEROFRAME_TRIGGER_BLACKOUT
      · refine ⟨_, onBreak_zero_counted s hst hz hthr, rfl, ?_, rfl, rfl⟩
        rw [Allocated_iff]
        exact ⟨d, t, hd, hdl, ht, htl⟩
      · refine ⟨_, onBreak_blackout s d hst hz (by omega) hd hdl, rfl, ?_, rfl, rfl⟩
        rw [Allocated_iff]
        exact ⟨_, t, rfl, List.length_replicate _ _, ht, htl⟩

/-- Below the threshold, consecutive all-zero frames only advance the
zero-frame counter. -/
theorem zero_frames_counted (frames : List (List (Nat × List Nat) × Nat)) :
    ∀ s : DMX, s.dmx_state = .DMX_BREAK → s.isAllZero = true → Allocated s →
      (∀ f ∈ frames, f.1 ≠ [] ∧ ∀ b ∈ frameBytes f.1, b = 0) →
      s.CptAllZeroFrame + frames.length ≤ 11 →
      ∃ s1, run (framesEvents frames) s = some s1 ∧ s1.dmx_data = s.dmx_data ∧
        s1.CptAllZeroFrame = s.CptAllZeroFrame + frames.length := by
  induction frames with
  | nil => intro s _ _ _ _ _; exact ⟨s, rfl, rfl, rfl⟩
  | cons f frames ih =>
    intro s hs hz halloc hframes hcount
    obtain ⟨chunks, tb⟩ := f
    simp only [List.length_cons] at hcount
    obtain ⟨hne, hall⟩ := hframes (chunks, tb) (List.mem_cons_self _ _)
    obtain ⟨s2, hrun2, hst2, hz2, halloc2, -, -, hlow, -⟩ :=
      frame_zero chunks tb s hs hz halloc hne hall
    have hmod : (s.CptAllZeroFrame + 1) % 256 = s.CptAllZeroFrame + 1 :=
      Nat.mod_eq_of_lt (by omega)
    obtain ⟨hd2, hc2⟩ := hlow (by rw [hmod]; unfold NBZEROFRAME_TRIGGER_BLACKOUT; omega)
    rw [hmod] at hc2
    obtain ⟨s3, hrun3, hd3, hc3⟩ := ih s2 hst2 hz2 halloc2
      (fun g hg => hframes g (List.mem_cons_of_mem _ hg)) (by rw [hc2]; omega)
    refine ⟨s3, ?_, hd3.trans hd2, ?_⟩
    · simp only [framesEvents, run_append, hrun2, Option.some_bind, Option.bind_eq_bind, hrun3]
    · rw [hc3, hc2, List.length_cons]; omega

/-- The all-zero frame that brings the count to 12 zeroes the validated
buffer and restarts the count. -/
theorem zero_frames_blackout (frames : List (List (Nat × List Nat) × Nat)) :
    ∀ s : DMX, s.dmx_state = .DMX_BREAK → s.isAllZero = true → Allocated s →
      (∀ f ∈ frames, f.1 ≠ [] ∧ ∀ b ∈ frameBytes f.1, b = 0) →
      s.CptAllZeroFrame ≤ 11 → s.CptAllZeroFrame + frames.length = 12 →
      ∃ s1, run (framesEvents frames) s = some s1 ∧
        s1.dmx_data = some (List.replicate (s._NbChannels + 1) 0) ∧
        s1.CptAllZeroFrame = 0 := by
  induction frames with
  | nil =>
    intro s _ _ _ _ h11 h12
    simp only [List.length_nil] at h12
    omega
  | cons f frames ih =>
    intro s hs hz halloc hframes h11 h12
    obtain ⟨chunks, tb⟩ := f
    simp only [List.length_cons] at h12
    obtain ⟨hne, hall⟩ := hframes (chunks, tb) (List.mem_cons_self _ _)
    obtain ⟨s2, hrun2, hst2, hz2, halloc2, hn2, -, hlow, hhigh⟩ :=
      frame_zero chunks tb s hs hz halloc hne hall
    have hmod : (s.CptAllZeroFrame + 1) % 256 = s.CptAllZeroFrame + 1 :=
      Nat.mod_eq_of_lt (by omega)
    rw [hmod] at hlow hhigh
    unfold NBZEROFRAME_TRIGGER_BLACKOUT at hlow hhigh
    by_cases hlast : s.CptAllZeroFrame = 11
    · have hnil : frames = [] := List.eq_nil_of_length_eq_zero (by omega)
      subst hnil
      obtain ⟨hd2, hc2⟩ := hhigh (by omega)
      refine ⟨s2, ?_, hd2, hc2⟩
      simp only [framesEvents, List.append_nil, hrun2]
    · obtain ⟨hd2, hc2⟩ := hlow (by omega)
      obtain ⟨s3, hrun3, hd3, hc3⟩ := ih s2 hst2 hz2 halloc2
        (fun g hg => hframes g (List.mem_cons_of_mem _ hg)) (by omega) (by omega)
      refine ⟨s3, ?_, by rw [hd3, hn2], hc3⟩
      simp only [framesEvents, run_append, hrun2, Option.some_bind, Option.bind_eq_bind, hrun3]

/-! ## Steps of the receive task on allocated buffers -/

/-- A data event on allocated buffers, in any state: it is processed without
fault, keeps the validated buffer, the counter and the window, keeps the scratch
buffer allocated, and sets the timestamp exactly when it recognises the null
start code after a break. -/
theorem onData_total (now : Nat) (p : List Nat) (s : DMX) (halloc : Allocated s) :
    ∃ s1, onData now p s = some s1 ∧ Allocated s1 ∧
      s1.dmx_data = s.dmx_data ∧ s1.CptAllZeroFrame = s.CptAllZeroFrame ∧
      s1._NbChannels = s._NbChannels ∧ s1._StartDMXAddr = s._StartDMXAddr ∧
      s1.last_dmx_packet =
        (if s.dmx_state = .DMX_BREAK ∧ p.headD 0 = 0 then toLong now else s.last_dmx_packet) := by
  obtain ⟨d, t, hd, hdl, ht, htl⟩ := (Allocated_iff s).1 halloc
  by_cases hb : s.dmx_state = .DMX_BREAK
  · by_cases hp : p.headD 0 = 0
    · obtain ⟨s1, t1, hrun, ht1, hlen1, hd1, ha1, hn1, hc1, hl1, -, -⟩ :=
        rxLoop_frame p
          { s with dmx_state := .DMX_DATA, current_rx_addr := 0, last_dmx_packet := toLong now }
          t ht htl
      refine ⟨s1, by rw [onData_break_null now p s hb hp, hrun], ?_, hd1, hc1, hn1, ha1, ?_⟩
      · rw [Allocated_iff]
        exact ⟨d, t1, hd1.trans hd, hdl.trans (congrArg (· + 1) hn1.symm), ht1,
          (hlen1.trans htl).trans (congrArg (· + 1) hn1.symm)⟩
      · rw [if_pos ⟨hb, hp⟩]; exact hl1
    · refine ⟨{ s with dmx_state := .DMX_IDLE }, ?_, halloc, rfl, rfl, rfl, rfl, ?_⟩
      · unfold onData
        rw [if_pos hb, if_neg hp]
        rfl
      · rw [if_neg (fun h => hp h.2)]
  · by_cases hdt : s.dmx_state = .DMX_DATA
    · obtain ⟨s1, t1, hrun, ht1, hlen1, hd1, ha1, hn1, hc1, hl1, -, -⟩ :=
        rxLoop_frame p s t ht htl
      refine ⟨s1, by rw [onData_inFrame now p s (Or.inl hdt), hrun], ?_, hd1, hc1, hn1, ha1, ?_⟩
      · rw [Allocated_iff]
        exact ⟨d, t1, hd1.trans hd, hdl.trans (congrArg (· + 1) hn1.symm), ht1,
          (hlen1.trans htl).trans (congrArg (· + 1) hn1.symm)⟩
      · rw [if_neg (fun h => hb h.1)]; exact hl1
    · refine ⟨s, ?_, halloc, rfl, rfl, rfl, rfl, ?_⟩
      · unfold onData
        rw [if_neg hb]
        simp only []
        rw [if_neg hdt]
      · rw [if_neg (fun h => hb h.1)]

/-- A break on allocated buffers, in any state: it is processed without fault
and keeps the scratch buffer, the cursor, the timestamp and the window. -/
theorem onBreak_total (s : DMX) (halloc : Allocated s) :
    ∃ s1, onBreak s = some s1 ∧ Allocated s1 ∧
      s1.tmp_dmx_data = s.tmp_dmx_data ∧ s1.current_rx_addr = s.current_rx_addr ∧
      s1.last_dmx_packet = s.last_dmx_packet ∧
      s1._NbChannels = s._NbChannels ∧ s1._StartDMXAddr = s._StartDMXAddr ∧
      (s1.dmx_state = .DMX_BREAK ∨ s1.dmx_state = .DMX_IDLE) := by
  obtain ⟨d, t, hd, hdl, ht, htl⟩ := (Allocated_iff s).1 halloc
  by_cases hst : s.dmx_state = .DMX_DONE ∨ s.dmx_state = .DMX_DATA
  · cases hz : s.isAllZero with
    | false =>
      refine ⟨_, onBreak_promote s d t hst hz hd hdl ht htl, ?_, rfl, rfl, rfl, rfl, rfl,
        Or.inl rfl⟩
      rw [Allocated_iff]
      exact ⟨t, t, rfl, htl, ht, htl⟩
    | true =>
      by_cases hthr : (s.CptAllZeroFrame + 1) % 256 < NBZEROFRAME_TRIGGER_BLACKOUT
      · refine ⟨_, onBreak_zero_counted s hst hz hthr, ?_, rfl, rfl, rfl, rfl, rfl, Or.inl rfl⟩
        rw [Allocated_iff]
        exact ⟨d, t, hd, hdl, ht, htl⟩
      · refine ⟨_, onBreak_blackout s d hst hz (by omega) hd hdl, ?_, rfl, rfl, rfl, rfl, rfl,
          Or.inl rfl⟩
        rw [Allocated_iff]
        exact ⟨_, t, rfl, List.length_replicate _ _, ht, htl⟩
  · by_cases hi : s.dmx_state = .DMX_IDLE
    · exact ⟨_, onBreak_idle s hi, halloc, rfl, rfl, rfl, rfl, rfl, Or.inl rfl⟩
    · refine ⟨{ s with dmx_state := .DMX_IDLE }, ?_, halloc, rfl, rfl, rfl, rfl, rfl, Or.inr rfl⟩
      unfold onBreak
      rw [if_neg hst, if_neg hi]

/-- A break processed outside a frame moves between `DMX_IDLE` and `DMX_BREAK`
and changes nothing else. -/
theorem onBreak_outside_frame (s : DMX)
    (hst : ¬ (s.dmx_state = .DMX_DONE ∨ s.dmx_state = .DMX_DATA)) :
    onBreak s = some { s with
      dmx_state := if s.dmx_state = .DMX_IDLE then .DMX_BREAK else .DMX_IDLE } := by
  unfold onBreak
  rw [if_neg hst]
  split_ifs <;> rfl

/-- An event that is neither data nor break only sets the state to `DMX_IDLE`. -/
theorem error_step (now : Nat) (ev : uart_event_t) (s : DMX)
    (hdata : ∀ p, ev ≠ .UART_DATA p) (hbreak : ev ≠ .UART_BREAK) :
    uart_event_step now ev s = some { s with dmx_state := .DMX_IDLE } := by
  cases ev with
  | UART_DATA p => exact absurd rfl (hdata p)
  | UART_BREAK => exact absurd rfl hbreak
  | _ => rfl

/-! ## The receive cursor -/

/-- The cursor facts of `CursorInv`, without the allocation. -/
theorem rxLoop_cursor (bs : List Nat) :
    ∀ (s : DMX) (t : List Nat), s.tmp_dmx_data = some t → t.length = s._NbChannels + 1 →
    s.current_rx_addr ≤ 513 →
    (s.dmx_state = .DMX_DATA → s.current_rx_addr < 513) →
    (s.dmx_state = .DMX_DONE → s.current_rx_addr = 513) →
    s.dmx_state ≠ .DMX_OUTPUT →
    ∃ s1 t1, rxLoop bs s = some s1 ∧ s1.tmp_dmx_data = some t1 ∧ t1.length = t.length ∧
      t1[0]? = t[0]? ∧ s1.dmx_data = s.dmx_data ∧
      s1._NbChannels = s._NbChannels ∧ s1._StartDMXAddr = s._StartDMXAddr ∧
      s1.current_rx_addr ≤ 513 ∧
      (s1.dmx_state = .DMX_DATA → s1.current_rx_addr < 513) ∧
      (s1.dmx_state = .DMX_DONE → s1.current_rx_addr = 513) ∧
      s1.dmx_state ≠ .DMX_OUTPUT := by
  induction bs with
  | nil =>
    intro s t ht _ h1 h2 h3 h4
    exact ⟨s, t, rfl, ht, rfl, rfl, rfl, rfl, rfl, h1, h2, h3, h4⟩
  | cons b bs ih =>
    intro s t ht hlen h1 h2 h3 h4
    obtain ⟨s1, t1, hstep, ht1, hd1, ha1, hn1, -, -, htv, hcur, -, hst⟩ :=
      rxByte_step s t b ht hlen
    have hlen1 : t1.length = t.length := by rw [htv]; exact rxByte_step_length s t b
    have hslot : t1[0]? = t[0]? := by
      rw [htv]
      split_ifs
      · rw [List.getElem?_set_ne]
        omega
      · rfl
    have hc1 : s1.current_rx_addr ≤ 513 := by
      rw [hcur]; split_ifs <;> omega
    have hD1 : s1.dmx_state = .DMX_DATA → s1.current_rx_addr < 513 := by
      rw [hcur, hst]
      intro h
      split_ifs at h ⊢ with hc h513
      · omega
    have hN1 : s1.dmx_state = .DMX_DONE → s1.current_rx_addr = 513 := by
      rw [hcur, hst]
      intro h
      split_ifs at h ⊢ with hc h513
      · exact h513
      · have := h3 h; omega
      · omega
    have hO1 : s1.dmx_state ≠ .DMX_OUTPUT := by
      rw [hst]
      split_ifs
      · decide
      · exact h4
      · decide
    obtain ⟨s2, t2, hrun, ht2, hlen2, hslot2, hd2, hn2, ha2, hc2, hD2, hN2, hO2⟩ :=
      ih s1 t1 ht1 (by rw [hlen1, hlen, hn1]) hc1 hD1 hN1 hO1
    refine ⟨s2, t2, ?_, ht2, hlen2.trans hlen1, hslot2.trans hslot, hd2.trans hd1,
      hn2.trans hn1, ha2.trans ha1, hc2, hD2, hN2, hO2⟩
    simp only [rxLoop, hstep, Option.some_bind, Option.bind_eq_bind, hrun]

/-- A data event keeps `CursorInv`, the size of the scratch buffer, its slot 0
and the window. -/
theorem onData_cursor (now : Nat) (p : List Nat) (s : DMX) (hinv : CursorInv s) :
    ∃ s1 t t1, onData now p s = some s1 ∧ CursorInv s1 ∧
      s.tmp_dmx_data = some t ∧ s1.tmp_dmx_data = some t1 ∧
      t1.length = s1._NbChannels + 1 ∧ t1[0]? = t[0]? ∧
      s1._NbChannels = s._NbChannels ∧ s1._StartDMXAddr = s._StartDMXAddr := by
  obtain ⟨halloc, h1, h2, h3, h4⟩ := hinv
  obtain ⟨d, t, hd, hdl, ht, htl⟩ := (Allocated_iff s).1 halloc
  have hfin : ∀ (s0 s1 : DMX) (t1 : List Nat), s0.dmx_data = s.dmx_data →
      s0._NbChannels = s._NbChannels → s1.tmp_dmx_data = some t1 → t1.length = t.length →
      s1.dmx_data = s0.dmx_data → s1._NbChannels = s0._NbChannels → Allocated s1 := by
    intro s0 s1 t1 hd0 hn0 ht1 hl1 hd1 hn1
    rw [Allocated_iff]
    exact ⟨d, t1, (hd1.trans hd0).trans hd, by rw [hdl, hn1, hn0], ht1,
      by rw [hl1, htl, hn1, hn0]⟩
  by_cases hb : s.dmx_state = .DMX_BREAK
  · by_cases hp : p.headD 0 = 0
    · obtain ⟨s1, t1, hrun, ht1, hlen1, hslot, hd1, hn1, ha1, hc1, hD1, hN1, hO1⟩ :=
        rxLoop_cursor p
          { s with dmx_state := .DMX_DATA, current_rx_addr := 0, last_dmx_packet := toLong now }
          t ht htl (Nat.zero_le _) (fun _ => by show (0 : Nat) < 513; decide)
          (fun h => DMXState.noConfusion h) (fun h => DMXState.noConfusion h)
      refine ⟨s1, t, t1, by rw [onData_break_null now p s hb hp, hrun],
        ⟨hfin _ s1 t1 rfl rfl ht1 hlen1 hd1 hn1, hc1, hD1, hN1, hO1⟩, ht, ht1, ?_, hslot, hn1,
        ha1⟩
      rw [hlen1, htl]; exact congrArg (· + 1) hn1.symm
    · refine ⟨{ s with dmx_state := .DMX_IDLE }, t, t, ?_,
        ⟨halloc, h1, fun h => DMXState.noConfusion h, fun h => DMXState.noConfusion h,
          fun h => DMXState.noConfusion h⟩, ht, ht, htl, rfl, rfl, rfl⟩
      unfold onData
      rw [if_pos hb, if_neg hp]
      rfl
  · by_cases hdt : s.dmx_state = .DMX_DATA
    · obtain ⟨s1, t1, hrun, ht1, hlen1, hslot, hd1, hn1, ha1, hc1, hD1, hN1, hO1⟩ :=
        rxLoop_cursor p s t ht htl h1 h2 h3 h4
      refine ⟨s1, t, t1, by rw [onData_inFrame now p s (Or.inl hdt), hrun],
        ⟨hfin s s1 t1 rfl rfl ht1 hlen1 hd1 hn1, hc1, hD1, hN1, hO1⟩, ht, ht1, ?_, hslot, hn1,
        ha1⟩
      rw [hlen1, htl]; exact congrArg (· + 1) hn1.symm
    · refine ⟨s, t, t, ?_, ⟨halloc, h1, h2, h3, h4⟩, ht, ht, htl, rfl, rfl, rfl⟩
      unfold onData
      rw [if_neg hb]
      simp only []
      rw [if_neg hdt]

/-- Every receive event keeps `CursorInv`. -/
theorem step_cursor (now : Nat) (ev : uart_event_t) (s : DMX) (hinv : CursorInv s) :
    ∃ s1, uart_event_step now ev s = some s1 ∧ CursorInv s1 := by
  cases ev with
  | UART_DATA p =>
    obtain ⟨s1, -, -, hrun, hinv1, -⟩ := onData_cursor now p s hinv
    exact ⟨s1, hrun, hinv1⟩
  | UART_BREAK =>
    obtain ⟨halloc, h1, -, -, -⟩ := hinv
    obtain ⟨s1, hrun, halloc1, -, hc, -, -, -, hst⟩ := onBreak_total s halloc
    refine ⟨s1, hrun, halloc1, by rw [hc]; exact h1, ?_, ?_, ?_⟩
    · intro h; rcases hst with h' | h' <;> rw [h'] at h <;> exact DMXState.noConfusion h
    · intro h; rcases hst with h' | h' <;> rw [h'] at h <;> exact DMXState.noConfusion h
    · intro h; rcases hst with h' | h' <;> rw [h'] at h <;> exact DMXState.noConfusion h
  | _ =>
    obtain ⟨halloc, h1, -, -, -⟩ := hinv
    all_goals
      exact ⟨_, rfl, halloc, h1, fun h => DMXState.noConfusion h,
        fun h => DMXState.noConfusion h, fun h => DMXState.noConfusion h⟩

/-- `CursorInv` holds in every reachable input-mode state. -/
theorem reachable_cursor (s : DMX) (hr : ReachableInput s) : CursorInv s := by
  induction hr with
  | init junk a n s hinit =>
    rw [Initialize_input_eq] at hinit
    have hs := Option.some.inj hinit
    subst hs
    refine ⟨?_, Nat.zero_le _, fun h => DMXState.noConfusion h,
      fun h => DMXState.noConfusion h, fun h => DMXState.noConfusion h⟩
    simp [Allocated, initial, malloc_length]
  | event now ev s s1 _ hstep ih =>
    obtain ⟨s2, hrun, hinv⟩ := step_cursor now ev s ih
    rw [hrun] at hstep
    exact Option.some.inj hstep ▸ hinv
  | setStart a s s1 _ hset ih =>
    subst hset
    unfold SetDmxStartAdress
    split_ifs
    · exact ih
    · exact ih
    · exact ih
    · exact ih
    · exact ih
  | setNb junk n s s1 _ hset ih =>
    unfold SetDmxNbChannels at hset
    obtain ⟨halloc, h1, h2, h3, h4⟩ := ih
    split_ifs at hset
    · exact Option.some.inj hset ▸ ⟨halloc, h1, h2, h3, h4⟩
    · exact Option.some.inj hset ▸ ⟨halloc, h1, h2, h3, h4⟩
    · exact Option.some.inj hset ▸ ⟨halloc, h1, h2, h3, h4⟩
    · exact Option.some.inj hset ▸ ⟨halloc, h1, h2, h3, h4⟩
    · obtain ⟨s2, hs2, halloc2, -, -, hst2⟩ :=
        createBuffer_allocated junk { s with _NbChannels := n }
      rw [createBuffer_eq] at hset hs2
      have e1 := Option.some.inj hset
      subst e1
      exact ⟨by rw [Option.some.inj hs2]; exact halloc2, h1, h2, h3, h4⟩

/-- Outside a frame (`DMX_DONE` or `DMX_IDLE`) data events are ignored. -/
theorem data_ignored (chunks : List (Nat × List Nat)) (s : DMX)
    (hs : s.dmx_state = .DMX_DONE ∨ s.dmx_state = .DMX_IDLE) :
    run (dataEvents chunks) s = some s := by
  induction chunks with
  | nil => rfl
  | cons c chunks ih =>
    have hb : ¬ s.dmx_state = .DMX_BREAK := by
      rcases hs with h | h <;> rw [h] <;> decide
    have hd : ¬ s.dmx_state = .DMX_DATA := by
      rcases hs with h | h <;> rw [h] <;> decide
    have hstep : uart_event_step c.1 (.UART_DATA c.2) s = some s := by
      show onData c.1 c.2 s = some s
      unfold onData
      rw [if_neg hb]
      simp only []
      rw [if_neg hd]
    simp only [dataEvents, List.map_cons, run, hstep, Option.some_bind, Option.bind_eq_bind]
    exact ih

/-- A run of data events keeps `CursorInv`, the size of the scratch buffer, its
slot 0 and the window. -/
theorem run_data_cursor (chunks : List (Nat × List Nat)) :
    ∀ s : DMX, CursorInv s →
    ∃ s1 t t1, run (dataEvents chunks) s = some s1 ∧ CursorInv s1 ∧
      s.tmp_dmx_data = some t ∧ s1.tmp_dmx_data = some t1 ∧
      t1.length = s1._NbChannels + 1 ∧ t1[0]? = t[0]? ∧
      s1._NbChannels = s._NbChannels ∧ s1._StartDMXAddr = s._StartDMXAddr := by
  induction chunks with
  | nil =>
    intro s hinv
    obtain ⟨d, t, -, -, ht, htl⟩ := (Allocated_iff s).1 hinv.1
    exact ⟨s, t, t, rfl, hinv, ht, ht, htl, rfl, rfl, rfl⟩
  | cons c chunks ih =>
    intro s hinv
    obtain ⟨s1, t, t1, hstep, hinv1, ht, ht1, -, hslot1, hn1, ha1⟩ :=
      onData_cursor c.1 c.2 s hinv
    obtain ⟨s2, t1b, t2, hrun, hinv2, ht1b, ht2, hlen2, hslot2, hn2, ha2⟩ := ih s1 hinv1
    have e : t1b = t1 := Option.some.inj (ht1b.symm.trans ht1)
    subst e
    refine ⟨s2, t, t2, ?_, hinv2, ht, ht2, hlen2, hslot2.trans hslot1, hn2.trans hn1,
      ha2.trans ha1⟩
    have hstep2 : uart_event_step c.1 (.UART_DATA c.2) s = some s1 := hstep
    simp only [dataEvents, List.map_cons, run, hstep2, Option.some_bind, Option.bind_eq_bind]
    exact hrun

/-! ## The transmit task and chunked reception -/

theorem readBytes_some (d : List Nat) (off n : Nat) (h : off + n ≤ d.length) :
    readBytes (some d) off n = some ((d.drop off).take n) := by
  simp only [readBytes, Option.some_bind, Option.bind_eq_bind, if_pos h]

/-- One iteration of the copy loop keeps the receive state inside the frame. -/
theorem rxByte_inFrame (s s1 : DMX) (b : Nat) (h : rxByte s b = some s1) (hin : InFrame s) :
    InFrame s1 := by
  unfold rxByte at h
  by_cases hc : s.current_rx_addr < 513
  · rw [if_pos hc] at h
    simp only [] at h
    obtain ⟨s2, hs2, h2⟩ := Option.bind_eq_some.1 h
    have hkeep : s2.dmx_state = s.dmx_state ∧ s2.current_rx_addr = s.current_rx_addr := by
      split_ifs at hs2 with hw
      · obtain ⟨t, -, ht2⟩ := Option.bind_eq_some.1 hs2
        rw [← Option.some.inj ht2]
        exact ⟨rfl, rfl⟩
      · rw [← Option.some.inj hs2]
        exact ⟨rfl, rfl⟩
    obtain ⟨hst, hcur⟩ := hkeep
    split_ifs at h2 with h513
    · rw [← Option.some.inj h2]
      exact Or.inr ⟨rfl, by show 513 ≤ s2.current_rx_addr + 1; omega⟩
    · rw [← Option.some.inj h2]
      rcases hin with hd | ⟨_, hge⟩
      · exact Or.inl (hst.trans hd)
      · omega
  · rw [if_neg hc] at h
    rw [← Option.some.inj h]
    exact Or.inr ⟨rfl, by show 513 ≤ s.current_rx_addr; omega⟩

/-- The copy loop keeps the receive state inside the frame, whatever the
buffers are. -/
theorem rxLoop_inFrame (bs : List Nat) :
    ∀ s s1 : DMX, rxLoop bs s = some s1 → InFrame s → InFrame s1 := by
  induction bs with
  | nil =>
    intro s s1 h hin
    exact Option.some.inj h ▸ hin
  | cons b bs ih =>
    intro s s1 h hin
    simp only [rxLoop] at h
    cases hb : rxByte s b with
    | none => rw [hb] at h; exact absurd h (by simp)
    | some s2 =>
      rw [hb] at h
      exact ih s2 s1 h (rxByte_inFrame s s2 b hb hin)

/-- Inside a frame, one data event with the payload `p ++ q` does what the data
events with `p` and with `q` do one after the other. -/
theorem onData_append_inFrame (now : Nat) (p q : List Nat) (s : DMX) (hin : InFrame s) :
    rxLoop (p ++ q) s = (rxLoop p s).bind (onData now q) := by
  rw [rxLoop_append]
  cases h : rxLoop p s with
  | none => rfl
  | some s1 =>
    simp only [Option.some_bind, Option.bind_eq_bind]
    rw [onData_inFrame now q s1 (rxLoop_inFrame p s s1 h hin)]

/-- C1. Frame promotion: for every state in `DMX_IDLE`, `DMX_DATA` or `DMX_DONE`
with both buffers allocated (`_NbChannels + 1` slots) and `1 ≤ _StartDMXAddr`, and
every payload `0 :: bs` with at most 512 channel bytes `bs`, one of them
non-zero, the events Break, Data(`0 :: bs`), Break are processed without fault,
the Data event leaves the validated buffer as it was and, after the closing
Break, `Read(i)` returns channel byte `_StartDMXAddr + i - 1` of the frame (that
is `bs[_StartDMXAddr + i - 2]`) for every local index `i` in `[1, _NbChannels]`
with `_StartDMXAddr + i - 1 ≤ bs.length`. -/
theorem C1_frame_promotion (s : DMX) (t0 t1 t2 : Nat) (bs : List Nat)
    (hmode : s.dmx_state = .DMX_IDLE ∨ s.dmx_state = .DMX_DATA ∨ s.dmx_state = .DMX_DONE)
    (halloc : Allocated s) (hstart : 1 ≤ s._StartDMXAddr)
    (hN : bs.length ≤ 512) (hnz : ∃ b ∈ bs, b ≠ 0) :
    ∃ s1 s2 s3,
      uart_event_step t0 .UART_BREAK s = some s1 ∧
      uart_event_step t1 (.UART_DATA (0 :: bs)) s1 = some s2 ∧
      s2.dmx_data = s1.dmx_data ∧
      uart_event_step t2 .UART_BREAK s2 = some s3 ∧
      ∀ i, 1 ≤ i → i ≤ s._NbChannels → s._StartDMXAddr + i - 1 ≤ bs.length →
        ∃ v, bs[s._StartDMXAddr + i - 2]? = some v ∧ Read s3 i = some (v, s3) := by
  obtain ⟨s1, hb1, hst1, halloc1, hn1, ha1⟩ := onBreak_opens s hmode halloc
  obtain ⟨s2, s3, hdata, hd2, hframe, -, -, -, -, hn3, ha3, hwin⟩ :=
    frame_promoted [(t1, 0 :: bs)] t2 s1 bs hst1 halloc1 (by simp)
      (by simp [frameBytes]) hN hnz
  have hstep2 : uart_event_step t1 (.UART_DATA (0 :: bs)) s1 = some s2 := by
    simp only [dataEvents, List.map_cons, List.map_nil, run] at hdata
    cases h : uart_event_step t1 (.UART_DATA (0 :: bs)) s1 with
    | none => rw [h] at hdata; exact absurd hdata (by simp)
    | some x => rw [h] at hdata; simpa using hdata
  have hstep3 : uart_event_step t2 .UART_BREAK s2 = some s3 := by
    simp only [frameEvents, dataEvents, List.map_cons, List.map_nil, List.cons_append,
      List.nil_append, run, hstep2, Option.some_bind, Option.bind_eq_bind] at hframe
    cases h : uart_event_step t2 .UART_BREAK s2 with
    | none => rw [h] at hframe; exact absurd hframe (by simp)
    | some x => rw [h] at hframe; simpa using hframe
  refine ⟨s1, s2, s3, hb1, hstep2, hd2, hstep3, ?_⟩
  intro i hi1 hi2 hi3
  obtain ⟨v, hv, hread⟩ := hwin i hi1 (by rw [hn3, hn1]; exact hi2)
    (by rw [ha3, ha1]; simp only [List.length_cons]; omega)
  refine ⟨v, ?_, hread⟩
  rw [ha3, ha1] at hv
  have hidx : s._StartDMXAddr + i - 1 = (s._StartDMXAddr + i - 2) + 1 := by omega
  rw [hidx, List.getElem?_cons_succ] at hv
  exact hv

/-- Instance of C1: the frame `0, 1, 2, 3, 4, 5` received by `exampleInput`. -/
theorem C1_frame_promotion_witness :
    (exampleInput.dmx_state = .DMX_IDLE ∨ exampleInput.dmx_state = .DMX_DATA ∨
      exampleInput.dmx_state = .DMX_DONE) ∧
    Allocated exampleInput ∧ 1 ≤ exampleInput._StartDMXAddr ∧
    [1, 2, 3, 4, 5].length ≤ 512 ∧ (∃ b ∈ [1, 2, 3, 4, 5], b ≠ 0) ∧
    ∃ s1 s2 s3,
      uart_event_step 10 .UART_BREAK exampleInput = some s1 ∧
      uart_event_step 11 (.UART_DATA (0 :: [1, 2, 3, 4, 5])) s1 = some s2 ∧
      s2.dmx_data = s1.dmx_data ∧
      uart_event_step 12 .UART_BREAK s2 = some s3 ∧
      ∀ i, 1 ≤ i → i ≤ exampleInput._NbChannels →
        exampleInput._StartDMXAddr + i - 1 ≤ [1, 2, 3, 4, 5].length →
        ∃ v, [1, 2, 3, 4, 5][exampleInput._StartDMXAddr + i - 2]? = some v ∧
          Read s3 i = some (v, s3) :=
  ⟨Or.inl rfl, by decide, by decide, by decide, ⟨1, by decide, by decide⟩,
    C1_frame_promotion exampleInput 10 11 12 [1, 2, 3, 4, 5] (Or.inl rfl) (by decide)
      (by decide) (by decide) ⟨1, by decide, by decide⟩⟩

/-- C2. Blackout threshold: from a state in `DMX_BREAK` with the all-zero flag
set, the zero-frame counter at 0 and both buffers allocated, after `k ≤ 11`
consecutive all-zero frames (each a non-empty run of data events whose bytes are
all 0, closed by a break) the validated buffer is what it was and the counter
is `k`; after 12 such frames every slot of the validated buffer is 0 and the
counter is 0. -/
theorem C2_blackout_threshold (s : DMX) (frames : List (List (Nat × List Nat) × Nat))
    (hs : s.dmx_state = .DMX_BREAK) (hz : s.isAllZero = true) (hc : s.CptAllZeroFrame = 0)
    (halloc : Allocated s)
    (hframes : ∀ f ∈ frames, f.1 ≠ [] ∧ ∀ b ∈ frameBytes f.1, b = 0) :
    (frames.length ≤ 11 →
      ∃ s1, run (framesEvents frames) s = some s1 ∧ s1.dmx_data = s.dmx_data ∧
        s1.CptAllZeroFrame = frames.length) ∧
    (frames.length = 12 →
      ∃ s1, run (framesEvents frames) s = some s1 ∧
        s1.dmx_data = some (List.replicate (s._NbChannels + 1) 0) ∧
        s1.CptAllZeroFrame = 0) := by
  constructor
  · intro hk
    obtain ⟨s1, hrun, hd, hcnt⟩ :=
      zero_frames_counted frames s hs hz halloc hframes (by rw [hc]; omega)
    exact ⟨s1, hrun, hd, by rw [hcnt, hc, Nat.zero_add]⟩
  · intro hk
    exact zero_frames_blackout frames s hs hz halloc hframes (by rw [hc]; omega)
      (by rw [hc]; omega)

/-- Instance of C2: `exampleZeroFrames` received by `exampleBreak`. -/
theorem C2_blackout_threshold_witness :
    exampleBreak.dmx_state = .DMX_BREAK ∧ exampleBreak.isAllZero = true ∧
    exampleBreak.CptAllZeroFrame = 0 ∧ Allocated exampleBreak ∧
    (∀ f ∈ exampleZeroFrames, f.1 ≠ [] ∧ ∀ b ∈ frameBytes f.1, b = 0) ∧
    exampleZeroFrames.length = 12 ∧
    ∃ s1, run (framesEvents exampleZeroFrames) exampleBreak = some s1 ∧
      s1.dmx_data = some (List.replicate (exampleBreak._NbChannels + 1) 0) ∧
      s1.CptAllZeroFrame = 0 :=
  ⟨rfl, rfl, rfl, by decide, by decide, by decide,
    (C2_blackout_threshold exampleBreak exampleZeroFrames rfl rfl rfl (by decide)
      (by decide)).2 (by decide)⟩

/-- C3. Isolated zero frame: from a state in `DMX_IDLE`, `DMX_DATA` or `DMX_DONE`
with both buffers allocated, let a non-zero frame `F1`, an all-zero frame `Z` and
a non-zero frame `F2` arrive in that order, each opened by a break, starting with
the null start code and closed by the next break (non-zero frames carry at most
512 channel bytes, one of them not 0).  Then after the break closing `F1` the
validated buffer holds the window of `F1` and the zero-frame counter is 0,
whatever it was before; after the break closing `Z` the validated buffer is
still the same; after the break closing `F2` the validated buffer holds the
window of `F2` and the zero-frame counter is 0. -/
theorem C3_isolated_zero_frame (s : DMX) (tb0 tb1 tb2 tb3 : Nat)
    (F1 Z F2 : List (Nat × List Nat)) (bs1 bs2 : List Nat)
    (hmode : s.dmx_state = .DMX_IDLE ∨ s.dmx_state = .DMX_DATA ∨ s.dmx_state = .DMX_DONE)
    (halloc : Allocated s)
    (hF1 : F1 ≠ [] ∧ frameBytes F1 = 0 :: bs1 ∧ bs1.length ≤ 512 ∧ ∃ b ∈ bs1, b ≠ 0)
    (hZ : Z ≠ [] ∧ ∀ b ∈ frameBytes Z, b = 0)
    (hF2 : F2 ≠ [] ∧ frameBytes F2 = 0 :: bs2 ∧ bs2.length ≤ 512 ∧ ∃ b ∈ bs2, b ≠ 0) :
    ∃ sF1 sZ sF2,
      run ((tb0, uart_event_t.UART_BREAK) :: frameEvents F1 tb1) s = some sF1 ∧
      run (frameEvents Z tb2) sF1 = some sZ ∧
      run (frameEvents F2 tb3) sZ = some sF2 ∧
      HoldsWindowOf sF1 (0 :: bs1) ∧ sF1.CptAllZeroFrame = 0 ∧
      sZ.dmx_data = sF1.dmx_data ∧ sZ.CptAllZeroFrame = 1 ∧
      HoldsWindowOf sF2 (0 :: bs2) ∧ sF2.CptAllZeroFrame = 0 := by
  obtain ⟨hne1, hb1, hN1, hnz1⟩ := hF1
  obtain ⟨hneZ, hallZ⟩ := hZ
  obtain ⟨hne2, hb2, hN2, hnz2⟩ := hF2
  obtain ⟨s0, hopen, hst0, halloc0, -, -⟩ := onBreak_opens s hmode halloc
  obtain ⟨-, sF1, -, -, hrun1, hstF1, hzF1, hcF1, hallocF1, -, -, hwin1⟩ :=
    frame_promoted F1 tb1 s0 bs1 hst0 halloc0 hne1 hb1 hN1 hnz1
  obtain ⟨sZ, hrunZ, hstZ, hzZ, hallocZ, -, -, hlow, -⟩ :=
    frame_zero Z tb2 sF1 hstF1 hzF1 hallocF1 hneZ hallZ
  obtain ⟨hdZ, hcZ⟩ := hlow (by rw [hcF1]; decide)
  obtain ⟨-, sF2, -, -, hrun2, -, -, hcF2, -, -, -, hwin2⟩ :=
    frame_promoted F2 tb3 sZ bs2 hstZ hallocZ hne2 hb2 hN2 hnz2
  refine ⟨sF1, sZ, sF2, ?_, hrunZ, hrun2, hwin1, hcF1, hdZ, by rw [hcZ, hcF1], hwin2, hcF2⟩
  have hstep : uart_event_step tb0 .UART_BREAK s = some s0 := hopen
  simp only [run, hstep, Option.some_bind, Option.bind_eq_bind, hrun1]

/-- Instance of C3: the frames `0, 7, 8, 9` (in two data events), `0, 0, 0, 0`
and `0, 1, 2, 3, 4, 5, 6` received by `exampleInput`. -/
theorem C3_isolated_zero_frame_witness :
    (exampleInput.dmx_state = .DMX_IDLE ∨ exampleInput.dmx_state = .DMX_DATA ∨
      exampleInput.dmx_state = .DMX_DONE) ∧
    Allocated exampleInput ∧
    ([(1, [0, 7]), (2, [8, 9])] ≠ [] ∧ frameBytes [(1, [0, 7]), (2, [8, 9])] = 0 :: [7, 8, 9] ∧
      [7, 8, 9].length ≤ 512 ∧ ∃ b ∈ [7, 8, 9], b ≠ 0) ∧
    ([(4, [0, 0, 0, 0])] ≠ [] ∧ ∀ b ∈ frameBytes [(4, [0, 0, 0, 0])], b = 0) ∧
    ([(6, [0, 1, 2, 3, 4, 5, 6])] ≠ [] ∧
      frameBytes [(6, [0, 1, 2, 3, 4, 5, 6])] = 0 :: [1, 2, 3, 4, 5, 6] ∧
      [1, 2, 3, 4, 5, 6].length ≤ 512 ∧ ∃ b ∈ [1, 2, 3, 4, 5, 6], b ≠ 0) ∧
    ∃ sF1 sZ sF2,
      run ((0, uart_event_t.UART_BREAK) :: frameEvents [(1, [0, 7]), (2, [8, 9])] 3)
        exampleInput = some sF1 ∧
      run (frameEvents [(4, [0, 0, 0, 0])] 5) sF1 = some sZ ∧
      run (frameEvents [(6, [0, 1, 2, 3, 4, 5, 6])] 7) sZ = some sF2 ∧
      HoldsWindowOf sF1 (0 :: [7, 8, 9]) ∧ sF1.CptAllZeroFrame = 0 ∧
      sZ.dmx_data = sF1.dmx_data ∧ sZ.CptAllZeroFrame = 1 ∧
      HoldsWindowOf sF2 (0 :: [1, 2, 3, 4, 5, 6]) ∧ sF2.CptAllZeroFrame = 0 :=
  ⟨Or.inl rfl, by decide, ⟨by decide, by decide, by decide, ⟨7, by decide, by decide⟩⟩,
    ⟨by decide, by decide⟩, ⟨by decide, by decide, by decide, ⟨1, by decide, by decide⟩⟩,
    C3_isolated_zero_frame exampleInput 0 3 5 7 [(1, [0, 7]), (2, [8, 9])] [(4, [0, 0, 0, 0])]
      [(6, [0, 1, 2, 3, 4, 5, 6])] [7, 8, 9] [1, 2, 3, 4, 5, 6] (Or.inl rfl) (by decide)
      ⟨by decide, by decide, by decide, ⟨7, by decide, by decide⟩⟩
      ⟨by decide, by decide⟩
      ⟨by decide, by decide, by decide, ⟨1, by decide, by decide⟩⟩⟩

/-- C4. Non-zero start code is discarded: in state `DMX_BREAK`, a data event whose
first byte is not 0 only sets the state to `DMX_IDLE` (validated buffer, scratch
buffer, zero-frame counter, timestamp and every other field keep their value),
and any further sequence of data events processed from there, before the next
break, leaves that state exactly as it is. -/
theorem C4_nonzero_start_code_discarded (now : Nat) (s : DMX) (b : Nat) (rest : List Nat)
    (hs : s.dmx_state = .DMX_BREAK) (hb : b ≠ 0) :
    uart_event_step now (.UART_DATA (b :: rest)) s = some { s with dmx_state := .DMX_IDLE } ∧
    ∀ more : List (Nat × List Nat),
      run (dataEvents more) { s with dmx_state := .DMX_IDLE }
        = some { s with dmx_state := .DMX_IDLE } := by
  constructor
  · simp [uart_event_step, onData, hs, hb]
  · intro more
    induction more with
    | nil => simp [dataEvents, run]
    | cons p more ih =>
      simp only [dataEvents, List.map_cons, run] at ih ⊢
      simp [uart_event_step, onData, ih]

/-- Instance of C4: the payload `1, 2, 3` received by `exampleBreak`, followed by a
data event `0, 1`. -/
theorem C4_nonzero_start_code_discarded_witness :
    exampleBreak.dmx_state = .DMX_BREAK ∧ (1 : Nat) ≠ 0 ∧
    uart_event_step 7 (.UART_DATA (1 :: [2, 3])) exampleBreak
      = some { exampleBreak with dmx_state := .DMX_IDLE } ∧
    run (dataEvents [(8, [0, 1])]) { exampleBreak with dmx_state := .DMX_IDLE }
      = some { exampleBreak with dmx_state := .DMX_IDLE } :=
  ⟨rfl, by decide,
    (C4_nonzero_start_code_discarded 7 exampleBreak 1 [2, 3] rfl (by decide)).1,
    (C4_nonzero_start_code_discarded 7 exampleBreak 1 [2, 3] rfl (by decide)).2 [(8, [0, 1])]⟩

/-- C5. Read sentinel: for every state and every channel `c` below 1 or above
`_NbChannels`, `Read(c)` returns 0 and leaves the state as it is; for every `c`
in `[1, _NbChannels]`, with the validated buffer holding more than `_NbChannels`
slots, it returns slot `c` of the validated buffer, again without changing the
state. -/
theorem C5_Read_sentinel (s : DMX) (c : Nat) :
    ((c < 1 ∨ c > s._NbChannels) → Read s c = some (0, s)) ∧
    ((1 ≤ c ∧ c ≤ s._NbChannels) → ∀ d, s.dmx_data = some d → s._NbChannels < d.length →
      ∃ v, d[c]? = some v ∧ Read s c = some (v, s)) := by
  constructor
  · intro h
    unfold Read
    rw [if_pos h]
  · rintro ⟨h1, h2⟩ d hd hlen
    have hc : c < d.length := by omega
    refine ⟨d[c], by simp [hc], ?_⟩
    have hn : ¬ (c < 1 ∨ c > s._NbChannels) := by omega
    unfold Read
    rw [if_neg hn, hd]
    simp [loadByte, hc]

/-- Instance of C5: channels 9 and 2 of `exampleBreak`. -/
theorem C5_Read_sentinel_witness :
    ((9 < 1 ∨ 9 > exampleBreak._NbChannels) ∧ Read exampleBreak 9 = some (0, exampleBreak)) ∧
    ((1 ≤ 2 ∧ 2 ≤ exampleBreak._NbChannels) ∧
      exampleBreak.dmx_data = some [0, 10, 20, 30, 40] ∧
      exampleBreak._NbChannels < [0, 10, 20, 30, 40].length ∧
      ∃ v, [0, 10, 20, 30, 40][2]? = some v ∧ Read exampleBreak 2 = some (v, exampleBreak)) :=
  ⟨⟨by decide, (C5_Read_sentinel exampleBreak 9).1 (by decide)⟩,
    ⟨by decide, rfl, by decide,
      (C5_Read_sentinel exampleBreak 2).2 (by decide) [0, 10, 20, 30, 40] rfl (by decide)⟩⟩

/-- C6. In input mode `Write` is not a no-op for every channel above
`_NbChannels`: after `Initialize(DMX_DIR_INPUT, 1, 10)` the validated buffer has
11 slots, channel 11 lies outside `[1, _NbChannels]`, yet `Write(11, 255)` passes
the guard `channel > 512` and stores to slot 11, outside the allocation. -/
theorem C6_Write_input_mode_overrun (junk : Nat → Nat) :
    ∃ s d, Initialize junk .DMX_DIR_INPUT 1 10 initial = some s ∧
      s.dmx_state = .DMX_IDLE ∧ s._NbChannels = 10 ∧
      s.dmx_data = some d ∧ d.length = 11 ∧
      ¬ (11 < 1 ∨ 11 > 512) ∧ 11 > s._NbChannels ∧
      Write s 11 255 = none := by
  refine ⟨_, List.replicate (10 + 1) 0, Initialize_input_eq junk 1 10 initial, rfl, rfl, rfl,
    List.length_replicate _ _, by decide, (by decide : (11 : Nat) > 10), ?_⟩
  exact Write_overrun _ (List.replicate (10 + 1) 0) 11 255 rfl (by decide)
    (by rw [List.length_replicate])

/-- C7. Write/Read round trip in output mode: `Initialize(DMX_DIR_OUTPUT, a, n)`
succeeds for all arguments and sets the window to (1, 512); in the state reached
from there by any sequence of `Write` calls, for every channel `c` in `[1, 512]`
and every byte `v`, `Write(c, v)` succeeds, the following `Read(c)` returns `v`,
and `Read(c2)` for every other channel `c2` returns what it returned before the
`Write`. -/
theorem C7_output_write_read_round_trip (junk : Nat → Nat) (a n : Nat) (s0 : DMX)
    (ws : List (Nat × Nat)) :
    ∃ s, Initialize junk .DMX_DIR_OUTPUT a n s0 = some s ∧
      s.dmx_state = .DMX_OUTPUT ∧ s._StartDMXAddr = 1 ∧ s._NbChannels = 512 ∧
      ∃ s1, writes ws s = some s1 ∧
        ∀ c v, 1 ≤ c → c ≤ 512 →
          ∃ s2, Write s1 c v = some s2 ∧ Read s2 c = some (v, s2) ∧
            ∀ c2, c2 ≠ c → (Read s2 c2).map Prod.fst = (Read s1 c2).map Prod.fst := by
  obtain ⟨s, d, hinit, hmode, hstart, hnb, hd, hlen, -⟩ :=
    Initialize_output_universe junk a n s0
  refine ⟨s, hinit, hmode, hstart, hnb, ?_⟩
  obtain ⟨s1, d1, hws, hd1, hlen1, hn1, -, -⟩ := writes_keeps_universe ws s d hd hlen
  refine ⟨s1, hws, ?_⟩
  intro c v h1 h2
  have hn : s1._NbChannels = 512 := hn1.trans hnb
  have hc : c < d1.length := by omega
  refine ⟨_, Write_in_range s1 d1 c v hd1 h1 h2 hc, ?_, ?_⟩
  · have hc2 : c < (d1.set c v).length := by rw [List.length_set]; exact hc
    rw [Read_in_range _ (d1.set c v) c rfl h1 (by show c ≤ s1._NbChannels; omega) hc2]
    simp
  · intro c2 hne
    by_cases hr : c2 < 1 ∨ c2 > 512
    · rw [Read_rejected _ c2 (by show c2 < 1 ∨ c2 > s1._NbChannels; omega),
        Read_rejected s1 c2 (by omega)]
      rfl
    · have hc2 : c2 < d1.length := by omega
      have hc3 : c2 < (d1.set c v).length := by rw [List.length_set]; exact hc2
      rw [Read_in_range _ (d1.set c v) c2 rfl (by omega) (by show c2 ≤ s1._NbChannels; omega) hc3,
        Read_in_range s1 d1 c2 hd1 (by omega) (by omega) hc2]
      simp [List.getElem_set, Ne.symm hne]

/-- Instance of C7: after `Initialize(DMX_DIR_OUTPUT, 7, 9)` and `Write(3, 5)`,
`Write(4, 200)` is read back on channel 4 and channel 3 keeps its value. -/
theorem C7_output_write_read_round_trip_witness :
    ∃ s s1 s2, Initialize (fun _ => 0) .DMX_DIR_OUTPUT 7 9 initial = some s ∧
      writes [(3, 5)] s = some s1 ∧ Write s1 4 200 = some s2 ∧
      Read s2 4 = some (200, s2) ∧
      (Read s2 3).map Prod.fst = (Read s1 3).map Prod.fst := by
  obtain ⟨s, hinit, -, -, -, s1, hws, h⟩ :=
    C7_output_write_read_round_trip (fun _ => 0) 7 9 initial [(3, 5)]
  obtain ⟨s2, hw, hr, hother⟩ := h 4 200 (by decide) (by decide)
  exact ⟨s, s1, s2, hinit, hws, hw, hr, hother 3 (by decide)⟩

/-- C8. `ReadAll` does not reject every request with `start + size >
_NbChannels + 1`: the sum is formed in the 32-bit `size_t`, so for `start = 2`
and `size = 4294967295` it wraps to 1, the guard lets the call through and
`memcpy` reads 4294967295 bytes from a 513-slot buffer. -/
theorem C8_ReadAll_size_wraps (junk : Nat → Nat) (dst : List Nat) :
    ∃ s, Initialize junk .DMX_DIR_INPUT 1 512 initial = some s ∧
      s._NbChannels = 512 ∧ 4294967295 < SIZE_T_RANGE ∧
      2 + 4294967295 > s._NbChannels + 1 ∧
      (2 + 4294967295) % SIZE_T_RANGE = 1 ∧
      ReadAll s dst 2 4294967295 = none := by
  refine ⟨_, Initialize_input_eq junk 1 512 initial, rfl, by decide,
    (by decide : 2 + 4294967295 > 512 + 1), by decide, ?_⟩
  exact ReadAll_overrun _ (List.replicate (512 + 1) 0) dst 2 4294967295 rfl
    (by decide : ¬ (2 < 1 ∨ 2 > 512 ∨ (2 + 4294967295) % SIZE_T_RANGE > 512 + 1))
    (by rw [List.length_replicate]; decide)

/-- C9. `WriteAll` does not reject every request with `start + size > 513`:
the sum is formed in the 32-bit `size_t`, so in output mode, for `start = 2` and
`size = 4294967295`, it wraps to 1, the guard lets the call through and `memcpy`
writes 4294967295 bytes into the 513-slot validated buffer. -/
theorem C9_WriteAll_size_wraps (junk : Nat → Nat) (src : List Nat) :
    ∃ s, Initialize junk .DMX_DIR_OUTPUT 1 512 initial = some s ∧
      s.dmx_state = .DMX_OUTPUT ∧ 4294967295 < SIZE_T_RANGE ∧
      2 + 4294967295 > 513 ∧
      (2 + 4294967295) % SIZE_T_RANGE = 1 ∧
      WriteAll s src 2 4294967295 = none := by
  refine ⟨_, Initialize_output_eq junk 1 512 initial, rfl, by decide, by decide, by decide, ?_⟩
  exact WriteAll_overrun _ (List.replicate (512 + 1) 0) src 2 4294967295 rfl (by decide)
    (by rw [List.length_replicate]; decide)

/-- C10. Window setters accept exactly the valid input-mode changes:
`SetDmxStartAdress(a)` changes the state if and only if the state is not
`DMX_OUTPUT`, `a` differs from `_StartDMXAddr`, `1 ≤ a ≤ 512` and
`a + _NbChannels ≤ 513`, and then only `_StartDMXAddr` changes;
`SetDmxNbChannels(n)` returns a changed state if and only if the state is not
`DMX_OUTPUT`, `n` differs from `_NbChannels`, `1 ≤ n ≤ 512` and
`_StartDMXAddr + n ≤ 513`; in every other case each setter returns the state
it was given. -/
theorem C10_window_setters (junk : Nat → Nat) (s : DMX) (a n : Nat) :
    (SetDmxStartAdress a s ≠ s ↔
      (s.dmx_state ≠ .DMX_OUTPUT ∧ a ≠ s._StartDMXAddr ∧ 1 ≤ a ∧ a ≤ 512 ∧
        a + s._NbChannels ≤ 513)) ∧
    (SetDmxStartAdress a s ≠ s → SetDmxStartAdress a s = { s with _StartDMXAddr := a }) ∧
    ((∃ s1, SetDmxNbChannels junk n s = some s1 ∧ s1 ≠ s) ↔
      (s.dmx_state ≠ .DMX_OUTPUT ∧ n ≠ s._NbChannels ∧ 1 ≤ n ∧ n ≤ 512 ∧
        s._StartDMXAddr + n ≤ 513)) ∧
    (¬ (s.dmx_state ≠ .DMX_OUTPUT ∧ n ≠ s._NbChannels ∧ 1 ≤ n ∧ n ≤ 512 ∧
        s._StartDMXAddr + n ≤ 513) → SetDmxNbChannels junk n s = some s) := by
  refine ⟨?_, ?_, ?_, ?_⟩
  · unfold SetDmxStartAdress
    constructor
    · intro h
      split_ifs at h with h1 h2 h3 h4
      all_goals first | exact absurd rfl h | skip
      refine ⟨h1, h2, ?_, ?_, ?_⟩ <;> omega
    · rintro ⟨h1, h2, h3, h4, h5⟩
      rw [if_neg h1, if_neg h2, if_neg (by omega), if_neg (by omega)]
      intro h
      have := congrArg DMX._StartDMXAddr h
      exact h2 this
  · unfold SetDmxStartAdress
    intro h
    split_ifs at h ⊢
    all_goals first | exact absurd rfl h | rfl
  · unfold SetDmxNbChannels
    constructor
    · rintro ⟨s1, h, hne⟩
      split_ifs at h with h1 h2 h3 h4
      all_goals first | exact absurd (Option.some.inj h).symm hne | skip
      refine ⟨h1, h2, ?_, ?_, ?_⟩ <;> omega
    · rintro ⟨h1, h2, h3, h4, h5⟩
      rw [if_neg h1, if_neg h2, if_neg (by omega), if_neg (by omega), createBuffer_eq]
      refine ⟨_, rfl, ?_⟩
      intro h
      have := congrArg DMX._NbChannels h
      exact h2 this
  · unfold SetDmxNbChannels
    intro h
    split_ifs with h1 h2 h3 h4
    all_goals first | rfl | skip
    exact absurd ⟨h1, h2, by omega, by omega, by omega⟩ h

/-- Instance of C10: on `exampleInput` (window 3, 4) the start address 2 is
accepted and changes only the start address, the channel count 511 is rejected. -/
theorem C10_window_setters_witness :
    (exampleInput.dmx_state ≠ .DMX_OUTPUT ∧ 2 ≠ exampleInput._StartDMXAddr ∧ 1 ≤ 2 ∧ 2 ≤ 512 ∧
      2 + exampleInput._NbChannels ≤ 513) ∧
    SetDmxStartAdress 2 exampleInput = { exampleInput with _StartDMXAddr := 2 } ∧
    ¬ (exampleInput.dmx_state ≠ .DMX_OUTPUT ∧ 511 ≠ exampleInput._NbChannels ∧ 1 ≤ 511 ∧
      511 ≤ 512 ∧ exampleInput._StartDMXAddr + 511 ≤ 513) ∧
    SetDmxNbChannels (fun _ => 0) 511 exampleInput = some exampleInput :=
  ⟨by decide,
    (C10_window_setters (fun _ => 0) exampleInput 2 511).2.1
      ((C10_window_setters (fun _ => 0) exampleInput 2 511).1.2 (by decide)),
    by decide,
    (C10_window_setters (fun _ => 0) exampleInput 2 511).2.2.2 (by decide)⟩

/-- C11. Resize zero-fills and shrinks the readable range: after every accepted
`SetDmxNbChannels(n)` (state not `DMX_OUTPUT`, `n` different from `_NbChannels`,
`1 ≤ n ≤ 512`, `_StartDMXAddr + n ≤ 513`) `_NbChannels` is `n`, the validated and
the scratch buffer both hold `n + 1` slots, and `Read(c)` returns 0 for every
channel `c`, within `[1, n]` or beyond, whatever it returned before. -/
theorem C11_resize_zero_fills (junk : Nat → Nat) (n : Nat) (s : DMX)
    (hmode : s.dmx_state ≠ .DMX_OUTPUT) (hne : n ≠ s._NbChannels)
    (h1 : 1 ≤ n) (h2 : n ≤ 512) (hwin : s._StartDMXAddr + n ≤ 513) :
    ∃ s1, SetDmxNbChannels junk n s = some s1 ∧ s1._NbChannels = n ∧
      s1.dmx_data.map List.length = some (n + 1) ∧
      s1.tmp_dmx_data.map List.length = some (n + 1) ∧
      ∀ c, Read s1 c = some (0, s1) := by
  obtain ⟨s1, hs1, halloc, hn, -, -⟩ := createBuffer_allocated junk { s with _NbChannels := n }
  have hn1 : s1._NbChannels = n := hn
  have hset : SetDmxNbChannels junk n s = some s1 := by
    unfold SetDmxNbChannels
    rw [if_neg hmode, if_neg hne, if_neg (by omega), if_neg (by omega), hs1]
  have hdata : s1.dmx_data = some (List.replicate (n + 1) 0) := by
    rw [createBuffer_eq] at hs1
    rw [← Option.some.inj hs1]
  refine ⟨s1, hset, hn1, ?_, ?_, ?_⟩
  · rw [← hn1]; exact halloc.1
  · rw [← hn1]; exact halloc.2
  · intro c
    by_cases hc : c < 1 ∨ c > s1._NbChannels
    · exact Read_rejected s1 c hc
    · have hlen : c < (List.replicate (n + 1) 0).length := by
        rw [List.length_replicate]; omega
      rw [Read_in_range s1 (List.replicate (n + 1) 0) c hdata (by omega) (by omega) hlen,
        List.getElem_replicate]

/-- Instance of C11: `SetDmxNbChannels(2)` on `exampleBreak`, whose channel 2
reads 20 before the call. -/
theorem C11_resize_zero_fills_witness :
    exampleBreak.dmx_state ≠ .DMX_OUTPUT ∧ 2 ≠ exampleBreak._NbChannels ∧ 1 ≤ 2 ∧ 2 ≤ 512 ∧
    exampleBreak._StartDMXAddr + 2 ≤ 513 ∧
    Read exampleBreak 2 = some (20, exampleBreak) ∧
    ∃ s1, SetDmxNbChannels (fun _ => 0) 2 exampleBreak = some s1 ∧ s1._NbChannels = 2 ∧
      s1.dmx_data.map List.length = some (2 + 1) ∧
      s1.tmp_dmx_data.map List.length = some (2 + 1) ∧
      ∀ c, Read s1 c = some (0, s1) :=
  ⟨by decide, by decide, by decide, by decide, by decide, by decide,
    C11_resize_zero_fills (fun _ => 0) 2 exampleBreak (by decide) (by decide) (by decide)
      (by decide) (by decide)⟩

/-- C12. Health threshold: for every state whose last-frame timestamp was taken
at tick `t` and every current tick `now` (both 32-bit tick counts), `IsHealthy`
returns 1 if and only if the elapsed ticks `now - t`, computed modulo `2^32`, are
below 500, and it returns the state unchanged; so it returns 1 at every tick in
`[t, t + 499]` and 0 at every tick from `t + 500` on.  The timestamp `t` is what
a data event that recognises the null start code at tick `t` leaves behind. -/
theorem C12_health_threshold (s : DMX) (t now : Nat) (ht : t < 2 ^ 32) (hnow : now < 2 ^ 32)
    (hlast : s.last_dmx_packet = toLong t) :
    ((IsHealthy now s).1 = 1 ↔ (now + 2 ^ 32 - t) % 2 ^ 32 < 500) ∧
    ((IsHealthy now s).1 = 1 ∨ (IsHealthy now s).1 = 0) ∧
    (IsHealthy now s).2 = s ∧
    (t ≤ now → now ≤ t + 499 → IsHealthy now s = (1, s)) ∧
    (t + 500 ≤ now → IsHealthy now s = (0, s)) ∧
    (∀ (s0 : DMX) (p : List Nat), s0.dmx_state = .DMX_BREAK → p.headD 0 = 0 → Allocated s0 →
      ∃ s1, uart_event_step t (.UART_DATA p) s0 = some s1 ∧ s1.last_dmx_packet = toLong t) := by
  have key : (((now % 2 ^ 32 : Nat) : Int) - s.last_dmx_packet) % 2 ^ 32 < (HEALTHY_TIME : Int)
      ↔ (now + 2 ^ 32 - t) % 2 ^ 32 < 500 := by
    rw [hlast]
    unfold toLong HEALTHY_TIME
    split_ifs <;> omega
  refine ⟨?_, ?_, ?_, ?_, ?_, ?_⟩
  · unfold IsHealthy
    simp only []
    rw [← key]
    split_ifs with h
    · exact ⟨fun _ => h, fun _ => rfl⟩
    · exact ⟨fun h0 => absurd h0 (by decide), fun hc => absurd hc h⟩
  · unfold IsHealthy
    simp only []
    split_ifs <;> simp
  · unfold IsHealthy
    simp only []
    split_ifs <;> rfl
  · intro h1 h2
    unfold IsHealthy
    simp only []
    rw [if_pos (key.2 (by omega))]
  · intro h1
    unfold IsHealthy
    simp only []
    rw [if_neg (fun h => absurd (key.1 h) (by omega))]
  · intro s0 p hs0 hp halloc
    obtain ⟨d, tmp, -, -, htmp, htl⟩ := (Allocated_iff s0).1 halloc
    obtain ⟨s1, t1, hrun, -, -, -, -, -, -, hl, -, -⟩ :=
      rxLoop_frame p
        { s0 with dmx_state := .DMX_DATA, current_rx_addr := 0, last_dmx_packet := toLong t }
        tmp htmp htl
    refine ⟨s1, ?_, hl⟩
    show onData t p s0 = some s1
    rw [onData_break_null t p s0 hs0 hp, hrun]

/-- Instance of C12: the timestamp 1000 of `exampleBreak` after a null start code
at tick 1000, queried at tick 1499. -/
theorem C12_health_threshold_witness :
    (1000 : Nat) < 2 ^ 32 ∧ (1499 : Nat) < 2 ^ 32 ∧
    ({ exampleBreak with last_dmx_packet := 1000 } : DMX).last_dmx_packet = toLong 1000 ∧
    ((IsHealthy 1499 { exampleBreak with last_dmx_packet := 1000 }).1 = 1 ↔
      (1499 + 2 ^ 32 - 1000) % 2 ^ 32 < 500) ∧
    IsHealthy 1499 { exampleBreak with last_dmx_packet := 1000 }
      = (1, { exampleBreak with last_dmx_packet := 1000 }) :=
  ⟨by decide, by decide, by decide,
    (C12_health_threshold { exampleBreak with last_dmx_packet := 1000 } 1000 1499 (by decide)
      (by decide) (by decide)).1,
    (C12_health_threshold { exampleBreak with last_dmx_packet := 1000 } 1000 1499 (by decide)
      (by decide) (by decide)).2.2.2.1 (by decide) (by decide)⟩

/-- C13. Universal error recovery: in every state, an event that is neither a
data event nor a break (frame error, parity error, buffer full, FIFO overflow or
any other kind) only sets the state to `DMX_IDLE`, leaving the validated buffer,
the scratch buffer, the window, the zero-frame counter and every other field as
they were; a break processed right after leads to `DMX_BREAK`. -/
theorem C13_universal_error_recovery (now now2 : Nat) (ev : uart_event_t) (s : DMX)
    (hdata : ∀ p, ev ≠ .UART_DATA p) (hbreak : ev ≠ .UART_BREAK) :
    uart_event_step now ev s = some { s with dmx_state := .DMX_IDLE } ∧
    uart_event_step now2 .UART_BREAK { s with dmx_state := .DMX_IDLE }
      = some { s with dmx_state := .DMX_BREAK } := by
  constructor
  · cases ev with
    | UART_DATA p => exact absurd rfl (hdata p)
    | UART_BREAK => exact absurd rfl hbreak
    | _ => rfl
  · exact onBreak_idle _ rfl

/-- Instance of C13: a FIFO overflow while `exampleBreak` awaits the start
code. -/
theorem C13_universal_error_recovery_witness :
    (∀ p, uart_event_t.UART_FIFO_OVF ≠ .UART_DATA p) ∧
    uart_event_t.UART_FIFO_OVF ≠ .UART_BREAK ∧
    uart_event_step 5 .UART_FIFO_OVF exampleBreak
      = some { exampleBreak with dmx_state := .DMX_IDLE } ∧
    uart_event_step 6 .UART_BREAK { exampleBreak with dmx_state := .DMX_IDLE }
      = some { exampleBreak with dmx_state := .DMX_BREAK } :=
  ⟨fun _ h => uart_event_t.noConfusion h, by decide,
    C13_universal_error_recovery 5 6 .UART_FIFO_OVF exampleBreak
      (fun _ h => uart_event_t.noConfusion h) (by decide)⟩

/-- C14. `Initialize` does not establish the address-window invariant: in input
mode it stores its arguments unchecked, so `Initialize(DMX_DIR_INPUT, 600, 0)`
leaves `_StartDMXAddr = 600` and `_NbChannels = 0`, outside `[1, 512]`, although
`SetDmxStartAdress(600)` and `SetDmxNbChannels(0)` reject these values in every
state. -/
theorem C14_Initialize_stores_unchecked_window (junk : Nat → Nat) :
    (∃ s, Initialize junk .DMX_DIR_INPUT 600 0 initial = some s ∧
      s._StartDMXAddr = 600 ∧ s._NbChannels = 0 ∧
      ¬ (1 ≤ s._StartDMXAddr ∧ s._StartDMXAddr ≤ 512 ∧ 1 ≤ s._NbChannels ∧
        s._NbChannels ≤ 512 ∧ s._StartDMXAddr + s._NbChannels ≤ 513)) ∧
    (∀ s : DMX, SetDmxStartAdress 600 s = s) ∧
    (∀ s : DMX, SetDmxNbChannels junk 0 s = some s) := by
  refine ⟨⟨_, Initialize_input_eq junk 600 0 initial, rfl, rfl, ?_⟩, ?_, ?_⟩
  · show ¬ (1 ≤ 600 ∧ 600 ≤ 512 ∧ 1 ≤ 0 ∧ 0 ≤ 512 ∧ 600 + 0 ≤ 513)
    decide
  · intro s
    unfold SetDmxStartAdress
    split_ifs with h1 h2 h3 h4
    · rfl
    · rfl
    · rfl
    · rfl
    · exact absurd (Or.inr (by decide)) h3
  · intro s
    unfold SetDmxNbChannels
    split_ifs with h1 h2 h3 h4
    · rfl
    · rfl
    · rfl
    · rfl
    · exact absurd (Or.inl rfl) h3

/-- C16. The blackout filter is bypassed after an error: from the state left by
`Initialize(DMX_DIR_INPUT, 3, 4)`, receive a frame that sets channels 3 to 6 to 9,
then the start of a frame with a non-zero byte, a frame error and a break.  The
state is `DMX_BREAK`, the zero-frame counter is 0 and the validated buffer holds
the four 9s, but the all-zero flag is still false; the single all-zero frame that
follows is promoted by the closing break and zeroes the validated buffer. -/
theorem C16_blackout_filter_bypassed :
    Initialize (fun _ => 0) .DMX_DIR_INPUT 3 4 initial = some exampleInput ∧
    ∃ s1 s2 : DMX,
      run [(0, .UART_BREAK), (1, .UART_DATA [0, 0, 0, 9, 9, 9, 9]), (2, .UART_BREAK),
        (3, .UART_DATA [0, 0, 0, 7]), (4, .UART_FRAME_ERR), (5, .UART_BREAK)] exampleInput
        = some s1 ∧
      s1.dmx_state = .DMX_BREAK ∧ s1.CptAllZeroFrame < 11 ∧ s1.isAllZero = false ∧
      s1.dmx_data = some [0, 9, 9, 9, 9] ∧
      run [(6, .UART_DATA [0, 0, 0, 0, 0, 0, 0]), (7, .UART_BREAK)] s1 = some s2 ∧
      s2.dmx_data = some [0, 0, 0, 0, 0] ∧ s2.dmx_data ≠ s1.dmx_data := by
  refine ⟨by decide, { exampleInput with
      dmx_state := .DMX_BREAK, dmx_data := some [0, 9, 9, 9, 9],
      tmp_dmx_data := some [0, 7, 9, 9, 9], current_rx_addr := 4, isAllZero := false,
      last_dmx_packet := 3 }, _, by decide, rfl, by decide, rfl, rfl, rfl, by decide,
    by decide⟩

/-- C17. A break processed in `DMX_IDLE` does not re-arm the all-zero flag: from
the state left by `Initialize(DMX_DIR_INPUT, 3, 4)`, a break, the start of a frame
with a non-zero byte and a frame error lead to `DMX_IDLE` with the flag false;
the break that starts the next frame leaves the state `DMX_BREAK` and the flag
still false. -/
theorem C17_flag_not_rearmed_from_idle :
    Initialize (fun _ => 0) .DMX_DIR_INPUT 3 4 initial = some exampleInput ∧
    ∃ s1 s2 : DMX,
      run [(0, .UART_BREAK), (1, .UART_DATA [0, 0, 0, 7]), (2, .UART_FRAME_ERR)] exampleInput
        = some s1 ∧
      s1.dmx_state = .DMX_IDLE ∧
      uart_event_step 3 .UART_BREAK s1 = some s2 ∧
      s2.dmx_state = .DMX_BREAK ∧ s2.isAllZero = false := by
  refine ⟨by decide, { exampleInput with
      dmx_state := .DMX_IDLE, tmp_dmx_data := some [0, 7, 0, 0, 0], current_rx_addr := 4,
      isAllZero := false, last_dmx_packet := 1 }, _, by decide, rfl, rfl, rfl, rfl⟩

/-- C18. The validated buffer changes only when a break ends a frame: on
allocated buffers every event other than a break processed in `DMX_DATA` or
`DMX_DONE` (that is every data event, every error event, and a break in any
other state) is processed without fault and leaves the validated buffer and
the zero-frame counter as they were; a break processed in `DMX_DATA` or
`DMX_DONE` (counter not at the 8-bit limit) leaves exactly what one application
of the blackout filter of the specification gives for the all-zero flag,
validated buffer, scratch buffer and counter, and a break that follows at once
sets the state to `DMX_IDLE` and changes nothing else. -/
theorem C18_buffer_changes_only_at_frame_end (now : Nat) (ev : uart_event_t) (s : DMX)
    (halloc : Allocated s) :
    (¬ (ev = .UART_BREAK ∧ (s.dmx_state = .DMX_DATA ∨ s.dmx_state = .DMX_DONE)) →
      ∃ s1, uart_event_step now ev s = some s1 ∧ s1.dmx_data = s.dmx_data ∧
        s1.CptAllZeroFrame = s.CptAllZeroFrame) ∧
    (ev = .UART_BREAK → (s.dmx_state = .DMX_DATA ∨ s.dmx_state = .DMX_DONE) →
      s.CptAllZeroFrame < 255 →
      ∃ s1 d t, uart_event_step now ev s = some s1 ∧
        s.dmx_data = some d ∧ s.tmp_dmx_data = some t ∧
        s1.dmx_data = some (specBlackoutFilter s.isAllZero d t s.CptAllZeroFrame).1 ∧
        s1.CptAllZeroFrame = (specBlackoutFilter s.isAllZero d t s.CptAllZeroFrame).2 ∧
        s1.dmx_state = .DMX_BREAK ∧
        uart_event_step now .UART_BREAK s1 = some { s1 with dmx_state := .DMX_IDLE }) := by
  obtain ⟨d, t, hd, hdl, ht, htl⟩ := (Allocated_iff s).1 halloc
  constructor
  · intro hnot
    cases ev with
    | UART_DATA p =>
      obtain ⟨s1, hrun, -, hd1, hc1, -, -, -⟩ := onData_total now p s halloc
      exact ⟨s1, hrun, hd1, hc1⟩
    | UART_BREAK =>
      have hst : ¬ (s.dmx_state = .DMX_DONE ∨ s.dmx_state = .DMX_DATA) := by
        intro h
        exact hnot ⟨rfl, h.symm⟩
      exact ⟨_, onBreak_outside_frame s hst, rfl, rfl⟩
    | _ => exact ⟨_, rfl, rfl, rfl⟩
  · intro hev hst hcnt
    subst hev
    have hst2 : s.dmx_state = .DMX_DONE ∨ s.dmx_state = .DMX_DATA := hst.symm
    have hmod : (s.CptAllZeroFrame + 1) % 256 = s.CptAllZeroFrame + 1 :=
      Nat.mod_eq_of_lt (by omega)
    have hagain : ∀ s1 : DMX, s1.dmx_state = .DMX_BREAK →
        uart_event_step now .UART_BREAK s1 = some { s1 with dmx_state := .DMX_IDLE } := by
      intro s1 h1
      show onBreak s1 = _
      rw [onBreak_outside_frame s1 (by rw [h1]; decide), h1]
      rfl
    cases hz : s.isAllZero with
    | false =>
      refine ⟨_, d, t, onBreak_promote s d t hst2 hz hd hdl ht htl, hd, ht, ?_, ?_, rfl,
        hagain _ rfl⟩
      · simp [specBlackoutFilter]
      · simp [specBlackoutFilter]
    | true =>
      by_cases hthr : (s.CptAllZeroFrame + 1) % 256 < NBZEROFRAME_TRIGGER_BLACKOUT
      · have hlt : ¬ (s.CptAllZeroFrame + 1 ≥ 12) := by
          rw [hmod] at hthr; unfold NBZEROFRAME_TRIGGER_BLACKOUT at hthr; omega
        refine ⟨_, d, t, onBreak_zero_counted s hst2 hz hthr, hd, ht, ?_, ?_, rfl,
          hagain _ rfl⟩
        · simp only [specBlackoutFilter, if_true, if_neg hlt]
          exact hd
        · simp only [specBlackoutFilter, if_true, if_neg hlt]
          exact hmod
      · have hge : s.CptAllZeroFrame + 1 ≥ 12 := by
          rw [hmod] at hthr; unfold NBZEROFRAME_TRIGGER_BLACKOUT at hthr; omega
        refine ⟨_, d, t, onBreak_blackout s d hst2 hz (by omega) hd hdl, hd, ht, ?_, ?_, rfl,
          hagain _ rfl⟩
        · simp only [specBlackoutFilter, if_true, if_pos hge, hdl]
        · simp only [specBlackoutFilter, if_true, if_pos hge]

/-- Instance of C18: on `exampleCollecting` a data event leaves buffer and counter
alone, the closing break promotes the scratch buffer. -/
theorem C18_buffer_changes_only_at_frame_end_witness :
    Allocated exampleCollecting ∧
    (∃ s1, uart_event_step 5 (.UART_DATA [6, 7]) exampleCollecting = some s1 ∧
      s1.dmx_data = exampleCollecting.dmx_data ∧
      s1.CptAllZeroFrame = exampleCollecting.CptAllZeroFrame) ∧
    (∃ s1 d t, uart_event_step 5 .UART_BREAK exampleCollecting = some s1 ∧
      exampleCollecting.dmx_data = some d ∧ exampleCollecting.tmp_dmx_data = some t ∧
      s1.dmx_data = some (specBlackoutFilter exampleCollecting.isAllZero d t
        exampleCollecting.CptAllZeroFrame).1 ∧
      s1.CptAllZeroFrame = (specBlackoutFilter exampleCollecting.isAllZero d t
        exampleCollecting.CptAllZeroFrame).2 ∧
      s1.dmx_state = .DMX_BREAK ∧
      uart_event_step 5 .UART_BREAK s1 = some { s1 with dmx_state := .DMX_IDLE }) :=
  ⟨by decide,
    (C18_buffer_changes_only_at_frame_end 5 (.UART_DATA [6, 7]) exampleCollecting
      (by decide)).1 (fun h => uart_event_t.noConfusion h.1),
    (C18_buffer_changes_only_at_frame_end 5 .UART_BREAK exampleCollecting
      (by decide)).2 rfl (Or.inl rfl) (by decide)⟩

/-- C19 (counterexample). A data event that recognises the null start code
changes the timestamp although nothing is promoted: on `exampleBreak`
(timestamp 0) the event Data(0, 0, 0) at tick 99 sets the timestamp to 99 and
leaves the validated buffer alone, and the break that closes this all-zero frame
filters it (counter 1, validated buffer unchanged) with the timestamp still
99. -/
theorem C19_timestamp_counterexample :
    exampleBreak.last_dmx_packet = 0 ∧
    ∃ s1 s2, uart_event_step 99 (.UART_DATA [0, 0, 0]) exampleBreak = some s1 ∧
      s1.last_dmx_packet = 99 ∧ s1.dmx_data = exampleBreak.dmx_data ∧
      uart_event_step 100 .UART_BREAK s1 = some s2 ∧
      s2.dmx_data = exampleBreak.dmx_data ∧ s2.CptAllZeroFrame = 1 ∧
      s2.last_dmx_packet = 99 := by
  refine ⟨rfl, { exampleBreak with
      dmx_state := .DMX_DATA, tmp_dmx_data := some [0, 10, 20, 30, 40], current_rx_addr := 3,
      last_dmx_packet := 99 }, _, by decide, rfl, rfl, rfl, by decide, by decide, by decide⟩

/-- C19 (amended). Timestamp at start-code recognition: on allocated buffers
every event is processed without fault, and the last-frame timestamp after the
step differs from the one before only if the step is a data event processed in
`DMX_BREAK` that finds the null start code in `dtmp[0]`; the timestamp is then
the current tick and the step leaves the validated buffer alone.  A break, and
so every promotion, leaves the timestamp as it was. -/
theorem C19_timestamp_at_start_code (now : Nat) (ev : uart_event_t) (s : DMX)
    (halloc : Allocated s) :
    ∃ s1, uart_event_step now ev s = some s1 ∧
      (s1.last_dmx_packet ≠ s.last_dmx_packet →
        s.dmx_state = .DMX_BREAK ∧ ∃ p, ev = .UART_DATA p ∧ p.headD 0 = 0) ∧
      (∀ p, ev = .UART_DATA p → s.dmx_state = .DMX_BREAK → p.headD 0 = 0 →
        s1.last_dmx_packet = toLong now ∧ s1.dmx_data = s.dmx_data) ∧
      (ev = .UART_BREAK → s1.last_dmx_packet = s.last_dmx_packet) := by
  cases ev with
  | UART_DATA p =>
    obtain ⟨s1, hrun, -, hd1, -, -, -, hl⟩ := onData_total now p s halloc
    refine ⟨s1, hrun, ?_, ?_, fun h => uart_event_t.noConfusion h⟩
    · intro hne
      by_cases hc : s.dmx_state = .DMX_BREAK ∧ p.headD 0 = 0
      · exact ⟨hc.1, p, rfl, hc.2⟩
      · rw [if_neg hc] at hl
        exact absurd hl hne
    · intro q hq hb hp
      cases hq
      rw [if_pos ⟨hb, hp⟩] at hl
      exact ⟨hl, hd1⟩
  | UART_BREAK =>
    obtain ⟨s1, hrun, -, -, -, hl, -, -, -⟩ := onBreak_total s halloc
    exact ⟨s1, hrun, fun hne => absurd hl hne, fun p h => uart_event_t.noConfusion h,
      fun _ => hl⟩
  | _ =>
    exact ⟨_, rfl, fun hne => absurd rfl hne, fun p h => uart_event_t.noConfusion h,
      fun h => uart_event_t.noConfusion h⟩

/-- Instance of C19 (amended): Data(0, 5) at tick 77 on `exampleBreak`. -/
theorem C19_timestamp_at_start_code_witness :
    Allocated exampleBreak ∧
    ∃ s1, uart_event_step 77 (.UART_DATA [0, 5]) exampleBreak = some s1 ∧
      s1.last_dmx_packet = toLong 77 ∧ s1.dmx_data = exampleBreak.dmx_data := by
  obtain ⟨s1, hrun, -, h, -⟩ :=
    C19_timestamp_at_start_code 77 (.UART_DATA [0, 5]) exampleBreak (by decide)
  exact ⟨by decide, s1, hrun, h [0, 5] rfl rfl rfl⟩

set_option maxRecDepth 100000 in
/-- C20 (counterexample). A cursor of 513 is found outside `DMX_DONE`: from the
state left by `Initialize(DMX_DIR_INPUT, 3, 4)`, a break, a data event of 513
bytes and the closing break lead to `DMX_BREAK` with the cursor still at 513 (a
break does not reset it); the data event Data(1) that follows is discarded for
its start code and leaves the state `DMX_IDLE` with the cursor at 513. -/
theorem C20_stale_cursor_counterexample :
    Initialize (fun _ => 0) .DMX_DIR_INPUT 3 4 initial = some exampleInput ∧
    ∃ s1 s2 : DMX,
      run [(0, .UART_BREAK), (1, .UART_DATA (List.replicate 513 0)), (2, .UART_BREAK)]
        exampleInput = some s1 ∧
      s1.dmx_state = .DMX_BREAK ∧ s1.current_rx_addr = 513 ∧
      run (dataEvents [(3, [1])]) s1 = some s2 ∧
      s2.current_rx_addr = 513 ∧ s2.dmx_state = .DMX_IDLE ∧ s2.dmx_state ≠ .DMX_DONE := by
  refine ⟨by decide, { exampleInput with
      dmx_state := .DMX_BREAK, current_rx_addr := 513, CptAllZeroFrame := 1,
      last_dmx_packet := 1 }, _, by decide, rfl, rfl, rfl, rfl, rfl, by decide⟩

/-- C20 (amended). Over-long frames cannot corrupt the window: for every state
reachable from `Initialize` in input mode (by receive events and setter calls)
and every sequence of data events of any total length, the events are processed
without fault, the cursor is at most 513 before and after, the scratch buffer
keeps its `_NbChannels + 1` slots and its slot 0 (writes land at local indices
`1 .. _NbChannels` only), a state that collects bytes (`DMX_DATA`) has its cursor
below 513 and a state in `DMX_DONE` has it at 513, and in `DMX_DONE` further
data events change nothing at all.  Nothing is said of the state in which a
cursor of 513 is found after the frame has ended. -/
theorem C20_overlong_frames_keep_window (s : DMX) (hr : ReachableInput s)
    (chunks : List (Nat × List Nat)) :
    ∃ s1 t t1, run (dataEvents chunks) s = some s1 ∧
      s.tmp_dmx_data = some t ∧ s1.tmp_dmx_data = some t1 ∧
      t.length = s._NbChannels + 1 ∧ t1.length = s._NbChannels + 1 ∧ t1[0]? = t[0]? ∧
      s1._NbChannels = s._NbChannels ∧ s1._StartDMXAddr = s._StartDMXAddr ∧
      s.current_rx_addr ≤ 513 ∧ s1.current_rx_addr ≤ 513 ∧
      (s1.dmx_state = .DMX_DATA → s1.current_rx_addr < 513) ∧
      (s1.dmx_state = .DMX_DONE → s1.current_rx_addr = 513) ∧
      (s1.dmx_state = .DMX_DONE → ∀ more, run (dataEvents more) s1 = some s1) := by
  have hinv := reachable_cursor s hr
  obtain ⟨s1, t, t1, hrun, hinv1, ht, ht1, hlen1, hslot, hn1, ha1⟩ :=
    run_data_cursor chunks s hinv
  obtain ⟨d, tb, -, -, htb, htl⟩ := (Allocated_iff s).1 hinv.1
  have e : tb = t := Option.some.inj (htb.symm.trans ht)
  subst e
  exact ⟨s1, tb, t1, hrun, ht, ht1, htl, by rw [hlen1, hn1], hslot, hn1, ha1, hinv.2.1,
    hinv1.2.1, hinv1.2.2.1, hinv1.2.2.2.1, fun h more => data_ignored more s1 (Or.inl h)⟩

/-- Instance of C20 (amended): `exampleOpened` is reachable (initialisation, then a
break), and the data events Data(0, 0, 0, 5) and Data(6, 7) are processed from
it. -/
theorem C20_overlong_frames_keep_window_witness :
    ReachableInput exampleOpened ∧
    ∃ s1 t t1, run (dataEvents [(1, [0, 0, 0, 5]), (2, [6, 7])]) exampleOpened = some s1 ∧
      exampleOpened.tmp_dmx_data = some t ∧ s1.tmp_dmx_data = some t1 ∧
      t.length = exampleOpened._NbChannels + 1 ∧ t1.length = exampleOpened._NbChannels + 1 ∧
      t1[0]? = t[0]? ∧
      s1._NbChannels = exampleOpened._NbChannels ∧
      s1._StartDMXAddr = exampleOpened._StartDMXAddr ∧
      exampleOpened.current_rx_addr ≤ 513 ∧ s1.current_rx_addr ≤ 513 ∧
      (s1.dmx_state = .DMX_DATA → s1.current_rx_addr < 513) ∧
      (s1.dmx_state = .DMX_DONE → s1.current_rx_addr = 513) ∧
      (s1.dmx_state = .DMX_DONE → ∀ more, run (dataEvents more) s1 = some s1) :=
  ⟨ReachableInput.event 0 .UART_BREAK exampleInput exampleOpened
      (ReachableInput.init (fun _ => 0) 3 4 exampleInput (by decide)) (by decide),
    C20_overlong_frames_keep_window exampleOpened
      (ReachableInput.event 0 .UART_BREAK exampleInput exampleOpened
        (ReachableInput.init (fun _ => 0) 3 4 exampleInput (by decide)) (by decide))
      [(1, [0, 0, 0, 5]), (2, [6, 7])]⟩

/-- C21. Transmitted frame content: for every state whose validated buffer holds
513 slots (what `Initialize` allocates in output mode), one iteration of the
transmit loop succeeds, hands exactly 513 bytes to the byte sink - the start
code 0 followed by the validated slots 1, 2, ..., 512 in ascending order, byte
`c` of the frame being slot `c` - and returns the state, validated buffer
included, as it was. -/
theorem C21_transmitted_frame_content (s : DMX) (d : List Nat) (hd : s.dmx_data = some d)
    (hlen : d.length = 513) :
    ∃ ops, uart_send_iteration s = some (ops, s) ∧
      (sinkBytes ops).length = 513 ∧
      (sinkBytes ops)[0]? = some 0 ∧
      (∀ c, 1 ≤ c → c ≤ 512 → (sinkBytes ops)[c]? = d[c]?) ∧
      sinkBytes ops = 0 :: d.drop 1 := by
  have hread : readBytes s.dmx_data 1 512 = some (d.drop 1) := by
    rw [hd, readBytes_some d 1 512 (by omega), List.take_of_length_le]
    rw [List.length_drop]; omega
  have hbytes : ∀ channels : List Nat,
      sinkBytes [TxOp.wait_tx_done 1000, TxOp.set_line_inverse true, TxOp.delay_us 184,
        TxOp.set_line_inverse false, TxOp.delay_us 24, TxOp.write_bytes [0],
        TxOp.write_bytes channels] = 0 :: channels := by
    intro channels
    simp [sinkBytes]
  refine ⟨_, ?_, ?_, ?_, ?_, hbytes (d.drop 1)⟩
  · unfold uart_send_iteration
    simp only [hread, Option.some_bind, Option.bind_eq_bind]
  · rw [hbytes, List.length_cons, List.length_drop]; omega
  · rw [hbytes, List.getElem?_cons_zero]
  · intro c h1 h2
    rw [hbytes]
    obtain ⟨k, rfl⟩ : ∃ k, c = k + 1 := ⟨c - 1, by omega⟩
    rw [List.getElem?_cons_succ, List.getElem?_drop, Nat.add_comm]

/-- Instance of C21: one transmit iteration on `exampleOutput`. -/
theorem C21_transmitted_frame_content_witness :
    exampleOutput.dmx_data = some (0 :: List.replicate 512 9) ∧
    (0 :: List.replicate 512 9).length = 513 ∧
    ∃ ops, uart_send_iteration exampleOutput = some (ops, exampleOutput) ∧
      (sinkBytes ops).length = 513 ∧
      (sinkBytes ops)[0]? = some 0 ∧
      (∀ c, 1 ≤ c → c ≤ 512 → (sinkBytes ops)[c]? = (0 :: List.replicate 512 9)[c]?) ∧
      sinkBytes ops = 0 :: (0 :: List.replicate 512 9).drop 1 :=
  ⟨rfl, by rw [List.length_cons, List.length_replicate],
    C21_transmitted_frame_content exampleOutput (0 :: List.replicate 512 9) rfl
      (by rw [List.length_cons, List.length_replicate])⟩

/-- C22. Chunking invariance of reception: for every state in `DMX_DATA` or
`DMX_DONE` and all payloads `p` and `q`, and for every state in `DMX_BREAK` with
`p` non-empty, the single event Data(`p ++ q`) gives exactly the result of
Data(`p`) followed by Data(`q`) at the same tick - the same state in every field,
or the same fault; on allocated buffers it is a state. -/
theorem C22_chunking_invariance (now : Nat) (p q : List Nat) (s : DMX) :
    ((s.dmx_state = .DMX_DATA ∨ s.dmx_state = .DMX_DONE) →
      uart_event_step now (.UART_DATA (p ++ q)) s =
        (uart_event_step now (.UART_DATA p) s).bind (uart_event_step now (.UART_DATA q))) ∧
    (s.dmx_state = .DMX_BREAK → p ≠ [] →
      uart_event_step now (.UART_DATA (p ++ q)) s =
        (uart_event_step now (.UART_DATA p) s).bind (uart_event_step now (.UART_DATA q))) ∧
    (Allocated s → ∃ s1, uart_event_step now (.UART_DATA (p ++ q)) s = some s1) := by
  have hignored : ∀ (r : List Nat) (s0 : DMX), s0.dmx_state ≠ .DMX_BREAK →
      s0.dmx_state ≠ .DMX_DATA → onData now r s0 = some s0 := by
    intro r s0 hb hdt
    unfold onData
    rw [if_neg hb]
    simp only []
    rw [if_neg hdt]
  refine ⟨?_, ?_, ?_⟩
  · intro hst
    show onData now (p ++ q) s = (onData now p s).bind (onData now q)
    rcases hst with h | h
    · rw [onData_inFrame now (p ++ q) s (Or.inl h), onData_inFrame now p s (Or.inl h)]
      exact onData_append_inFrame now p q s (Or.inl h)
    · have hb : s.dmx_state ≠ .DMX_BREAK := by rw [h]; decide
      have hdt : s.dmx_state ≠ .DMX_DATA := by rw [h]; decide
      rw [hignored (p ++ q) s hb hdt, hignored p s hb hdt]
      exact (hignored q s hb hdt).symm
  · intro hb hne
    show onData now (p ++ q) s = (onData now p s).bind (onData now q)
    cases p with
    | nil => exact absurd rfl hne
    | cons b p =>
      by_cases hz : b = 0
      · have h1 : ((b :: p) ++ q).headD 0 = 0 := hz
        have h2 : (b :: p).headD 0 = 0 := hz
        rw [onData_break_null now _ s hb h1, onData_break_null now _ s hb h2]
        exact onData_append_inFrame now (b :: p) q _ (Or.inl rfl)
      · have hidle : ∀ r : List Nat, onData now (b :: r) s
            = some { s with dmx_state := .DMX_IDLE } := by
          intro r
          unfold onData
          rw [if_pos hb, if_neg (show ¬ (b :: r).headD 0 = 0 from hz)]
          rfl
        rw [List.cons_append, hidle (p ++ q), hidle p]
        exact (hignored q _ (fun h => DMXState.noConfusion h)
          (fun h => DMXState.noConfusion h)).symm
  · intro halloc
    obtain ⟨s1, hrun, -⟩ := onData_total now (p ++ q) s halloc
    exact ⟨s1, hrun⟩

/-- Instance of C22: the payload `0, 0, 0, 5, 6, 7` on `exampleOpened`, whole or
split after its fourth byte. -/
theorem C22_chunking_invariance_witness :
    exampleOpened.dmx_state = .DMX_BREAK ∧ [0, 0, 0, 5] ≠ [] ∧
    uart_event_step 4 (.UART_DATA ([0, 0, 0, 5] ++ [6, 7])) exampleOpened =
      (uart_event_step 4 (.UART_DATA [0, 0, 0, 5]) exampleOpened).bind
        (uart_event_step 4 (.UART_DATA [6, 7])) ∧
    Allocated exampleOpened ∧
    ∃ s1, uart_event_step 4 (.UART_DATA ([0, 0, 0, 5] ++ [6, 7])) exampleOpened = some s1 :=
  ⟨rfl, by decide,
    (C22_chunking_invariance 4 [0, 0, 0, 5] [6, 7] exampleOpened).2.1 rfl (by decide),
    by decide,
    (C22_chunking_invariance 4 [0, 0, 0, 5] [6, 7] exampleOpened).2.2 (by decide)⟩

end DMX
